import Mathlib

/-!
# Parameter binding: `binding/param_info.go`

A shallow embedding of the per-field binding resolver of the `binding` package
(`paramInfo` and `setStringSlice`) together with the library routines it calls
(`strconv.ParseBool`, `strconv.ParseInt`, `strconv.ParseUint`, the part of
`reflect` used to read kinds and to assign through a handle, and
`goutil.DereferenceValue`).

Conventions of the embedding

* A Go `string` and a Go `[]byte` are sequences of bytes; a byte is a natural number.
* A type is kept as far as the binder and the assignability test of `reflect` depend on
  it: its kind, for a slice the kind of its element, whether it is the predeclared type
  of its kind or a defined type (`type MyString string`), and for a slice whether the
  element type is the predeclared type of the element kind.
* A Go `error` result is an `Option GoError` (`none` is `nil`).
* The target instance is threaded explicitly: an operation that receives the
  `*tagexpr.TagExpr` returns the target instance it leaves behind.
* A run-time panic (indexing an empty slice, `reflect.Value.Set` with a value whose
  type is not assignable to the field's type) is the `Except.error` outcome.
-/

namespace Binding

/-! ## Strings and bytes -/

/-- A Go string: a sequence of bytes. -/
abbrev GoString := List Nat

/-- The Go string written as the literal `s` (its UTF-8 bytes). -/
def str (s : String) : GoString :=
  (s.toList.flatMap String.utf8EncodeChar).map UInt8.toNat

/-! ## `strconv` -/

/-- The two `strconv` failure causes that `ParseInt` and `ParseUint` report. -/
inductive NumError
  | ErrSyntax
  | ErrRange
  deriving DecidableEq, Repr

/-- Function `strconv.ParseBool`: `none` is the syntax error. -/
def ParseBool (s : GoString) : Option Bool :=
  if s = str "1" ∨ s = str "t" ∨ s = str "T" ∨ s = str "true" ∨ s = str "TRUE" ∨ s = str "True" then
    some true
  else if s = str "0" ∨ s = str "f" ∨ s = str "F" ∨ s = str "false" ∨ s = str "FALSE"
      ∨ s = str "False" then
    some false
  else
    none

/-- The constant `maxUint64 / 10 + 1` of `strconv.ParseUint` in base 10: the smallest
number whose product with the base overflows 64 bits. -/
def parseUintCutoff : Nat := (2 ^ 64 - 1) / 10 + 1

/-- The digit loop of `strconv.ParseUint` in base 10 (`n` is the accumulator, a
`uint64`). In base 10 every byte other than `'0'..'9'` is a syntax error: a letter is a
digit value of at least 10, and the underscore is accepted in base 0 only. -/
def parseUintLoop (maxVal : Nat) : List Nat → Nat → Nat × Option NumError
  | [], n => (n, none)
  | c :: cs, n =>
    if 48 ≤ c ∧ c ≤ 57 then
      let d := c - 48
      if n ≥ parseUintCutoff then
        (maxVal, some NumError.ErrRange)
      else
        let n10 := (n * 10) % 2 ^ 64
        let n1 := (n10 + d) % 2 ^ 64
        if n1 < n10 ∨ n1 > maxVal then
          (maxVal, some NumError.ErrRange)
        else
          parseUintLoop maxVal cs n1
    else
      (0, some NumError.ErrSyntax)

/-- Function `strconv.ParseUint(s, 10, bitSize)` for `1 ≤ bitSize ≤ 64`: the value and
the error (`none` is `nil`). `maxVal` is `uint64(1)<<bitSize - 1` in 64-bit arithmetic. -/
def ParseUint (s : GoString) (bitSize : Nat) : Nat × Option NumError :=
  if s = [] then
    (0, some NumError.ErrSyntax)
  else
    let maxVal := ((2 ^ bitSize) % 2 ^ 64 + 2 ^ 64 - 1) % 2 ^ 64
    parseUintLoop maxVal s 0

/-- Conversion of an integer to a signed integer of `w` bits (two's complement wrap). -/
def wrapInt (w : Nat) (i : Int) : Int :=
  (i + 2 ^ (w - 1)) % 2 ^ w - 2 ^ (w - 1)

/-- Function `strconv.ParseInt(s, 10, bitSize)` for `1 ≤ bitSize ≤ 64`: the value and
the error (`none` is `nil`). -/
def ParseInt (s : GoString) (bitSize : Nat) : Int × Option NumError :=
  match s with
  | [] => (0, some NumError.ErrSyntax)
  | c :: rest =>
    let neg : Bool := decide (c = 45)
    let s1 := if c = 43 ∨ c = 45 then rest else s
    match ParseUint s1 bitSize with
    | (_, some NumError.ErrSyntax) => (0, some NumError.ErrSyntax)
    | (un, _) =>
      let cutoff : Nat := 2 ^ (bitSize - 1)
      if neg = false ∧ un ≥ cutoff then
        (((cutoff - 1 : Nat) : Int), some NumError.ErrRange)
      else if neg = true ∧ un > cutoff then
        (-(cutoff : Int), some NumError.ErrRange)
      else
        let n := wrapInt 64 (un : Int)
        (if neg then wrapInt 64 (-n) else n, none)

/-- Function `strconv.FormatUint(n, 10)`: the base-10 representation of `n`. -/
def FormatUint (n : Nat) : GoString :=
  if n = 0 then [48] else ((Nat.digits 10 n).reverse).map (fun d => 48 + d)

/-- Function `strconv.FormatInt(i, 10)`: the base-10 representation of `i`. -/
def FormatInt (i : Int) : GoString :=
  if i < 0 then 45 :: FormatUint i.natAbs else FormatUint i.natAbs

/-! ## `reflect` -/

/-- The enumeration `reflect.Kind`. -/
inductive Kind
  | Invalid | Bool | Int | Int8 | Int16 | Int32 | Int64
  | Uint | Uint8 | Uint16 | Uint32 | Uint64 | Uintptr
  | Float32 | Float64 | Complex64 | Complex128
  | Array | Chan | Func | Interface | Map | Ptr | Slice | String | Struct | UnsafePointer
  deriving DecidableEq, Repr

/-- A scalar held by a field or by an element of a slice. A float is held as the
result of `strconv.ParseFloat`, which the embedding does not interpret. -/
inductive Scalar
  | bool (b : Bool)
  | int (i : Int)
  | uint (n : Nat)
  | float (f : Nat)
  | str (s : GoString)
  deriving DecidableEq, Repr

/-- What a storage location holds: one scalar, a sequence (a slice), or a value of a
kind the binder never writes (struct, map, ...). -/
inductive Data
  | one (x : Scalar)
  | many (xs : List Scalar)
  | other
  deriving DecidableEq, Repr

/-- A `reflect.Type` as far as the binder and `reflect.Value.Set` depend on it: `Kind()`;
for a slice `Elem().Kind()`; whether the type is a defined type (`type MyString string`)
rather than the predeclared type or the type literal of its kind; and, for a slice,
whether its element type is a defined type (`[]MyByte` rather than `[]uint8`). -/
structure RType where
  kind : Kind
  elemKind : Kind
  defined : Bool
  elemDefined : Bool
  deriving DecidableEq, Repr

/-- The kinds that have a predeclared type (`bool`, the numeric types, `string`). -/
def basicKind : Kind → Bool
  | Kind.Bool | Kind.Int | Kind.Int8 | Kind.Int16 | Kind.Int32 | Kind.Int64
  | Kind.Uint | Kind.Uint8 | Kind.Uint16 | Kind.Uint32 | Kind.Uint64 | Kind.Uintptr
  | Kind.Float32 | Kind.Float64 | Kind.Complex64 | Kind.Complex128 | Kind.String => true
  | _ => false

/-- A run-time panic: an index out of range, or `reflect.Value.Set` called with a value
whose type is not assignable to the type of the location. -/
inductive Panic
  | indexOutOfRange
  | notAssignable
  deriving DecidableEq, Repr

/-- A `reflect.Value` made by `reflect.ValueOf` from a Go value whose type holds no
defined type: a `string`, or a slice `[]E` where `E` is the predeclared type of the kind
`elem` (`[]byte` is `ofSlice Kind.Uint8`; what `stringsToValue` builds from the element
kind alone is `ofSlice` of that kind, and no value when the kind has no predeclared
type). -/
inductive Value
  | ofString (s : GoString)
  | ofSlice (elem : Kind) (xs : List Scalar)
  deriving DecidableEq, Repr

/-- The content of a value. -/
def Value.data : Value → Data
  | Value.ofString s => Data.one (Scalar.str s)
  | Value.ofSlice _ xs => Data.many xs

/-- Assignability of a value to a location of type `t`, as `reflect.Value.Set` tests it:
the types are identical, or their underlying types are identical and one of the two is
not a defined type. A `string` is assignable to the type `string` only (both it and a
defined string type are named); a `[]E` is assignable to a slice type, defined or not,
whose element type is `E` itself. -/
def RType.assignableFrom (t : RType) : Value → Bool
  | Value.ofString _ => decide (t.kind = Kind.String) && !t.defined
  | Value.ofSlice e _ =>
    decide (t.kind = Kind.Slice) && decide (t.elemKind = e) && basicKind e && !t.elemDefined

/-- A `reflect.Value` obtained from a field handle: the zero `Value`, a pointer with
what it points to (the zero `Value` when the pointer is nil), or a settable location of
non-pointer type with its current content. A field of interface type is covered when the
interface is nil (it dereferences to the zero `Value` as a nil pointer does); an interface
that holds a value is outside the embedding. -/
inductive RValue
  | invalid
  | ptr (elem : RValue)
  | loc (typ : RType) (data : Data)
  deriving DecidableEq, Repr

/-- Method `reflect.Value.IsValid`. -/
def RValue.IsValid : RValue → Bool
  | RValue.invalid => false
  | _ => true

/-- Method `reflect.Value.Kind`. -/
def RValue.kind : RValue → Kind
  | RValue.invalid => Kind.Invalid
  | RValue.ptr _ => Kind.Ptr
  | RValue.loc t _ => t.kind

/-- The kind `v.Type().Elem().Kind()` of a location. -/
def RValue.elemKind : RValue → Kind
  | RValue.loc t _ => t.elemKind
  | _ => Kind.Invalid

/-- Function `goutil.DereferenceValue`: takes `Elem()` as long as the kind is `Ptr` (or
`Interface`), down to the value the pointers lead to. -/
def DereferenceValue : RValue → RValue
  | RValue.ptr e => DereferenceValue e
  | v => v

/-- The content of the location `DereferenceValue v`, if it is a location. -/
def RValue.content (v : RValue) : Option Data :=
  match DereferenceValue v with
  | RValue.loc _ d => some d
  | _ => none

/-- The handle `v` once the location that `DereferenceValue v` reaches holds `d`
(everything else is as before): the effect of `SetBool`, `SetInt`, `SetUint`, `SetFloat`
and of a `Set` that does not panic. -/
def RValue.assign : RValue → Data → RValue
  | RValue.ptr e, d => RValue.ptr (RValue.assign e d)
  | RValue.loc t _, d => RValue.loc t d
  | RValue.invalid, _ => RValue.invalid

/-- Method `reflect.Value.Set` on `DereferenceValue v`: panics unless the type of `x` is
assignable to the type of the location; otherwise the location holds the content of
`x`. -/
def RValue.Set (v : RValue) (x : Value) : Except Panic RValue :=
  match DereferenceValue v with
  | RValue.loc t _ =>
    if t.assignableFrom x then Except.ok (v.assign x.data) else Except.error Panic.notAssignable
  | _ => Except.error Panic.notAssignable

/-- The external collaborators of the binder that the embedding does not interpret. -/
structure Env where
  /-- The width in bits of `int` and `uint` on the platform (`strconv.IntSize`). -/
  IntSize : Nat
  /-- Function `strconv.ParseFloat(s, bitSize)`: `none` is an error, `some f` the parsed
  float. -/
  ParseFloat : GoString → Nat → Option Nat
  /-- Function `stringsToValue(elemKind, a)` of this package: the converted elements or
  the error of the conversion. It receives the kind of the element only, so the slice it
  builds has elements of the predeclared type of that kind. -/
  stringsToValue : Kind → List GoString → Except GoString (List Scalar)
  /-- The test `gjson.Get(body, path).Exists()`. -/
  gjsonExists : GoString → GoString → Bool

/-- The width in bits of the integer kinds. -/
def kindBits (env : Env) : Kind → Nat
  | Kind.Int => env.IntSize
  | Kind.Int8 => 8
  | Kind.Int16 => 16
  | Kind.Int32 => 32
  | Kind.Int64 => 64
  | Kind.Uint => env.IntSize
  | Kind.Uint8 => 8
  | Kind.Uint16 => 16
  | Kind.Uint32 => 32
  | Kind.Uint64 => 64
  | _ => 0

/-- Method `reflect.Value.SetBool` on `DereferenceValue v` (it tests the kind only). -/
def RValue.SetBool (v : RValue) (b : Bool) : RValue :=
  v.assign (Data.one (Scalar.bool b))

/-- Method `reflect.Value.SetFloat` on `DereferenceValue v` (it tests the kind only). -/
def RValue.SetFloat (v : RValue) (f : Nat) : RValue :=
  v.assign (Data.one (Scalar.float f))

/-- Method `reflect.Value.SetInt` on `DereferenceValue v` (it tests the kind only): the
`int64` argument is converted to the signed integer type of the location. -/
def RValue.SetInt (env : Env) (v : RValue) (i : Int) : RValue :=
  v.assign (Data.one (Scalar.int (wrapInt (kindBits env (DereferenceValue v).kind) i)))

/-- Method `reflect.Value.SetUint` on `DereferenceValue v` (it tests the kind only): the
`uint64` argument is converted to the unsigned integer type of the location. -/
def RValue.SetUint (env : Env) (v : RValue) (n : Nat) : RValue :=
  v.assign (Data.one (Scalar.uint (n % 2 ^ kindBits env (DereferenceValue v).kind)))

/-! ## Binding rules -/

/-- An `error` value built by `bindErrFactory(failField, msg)`. -/
structure GoError where
  failField : GoString
  msg : GoString
  deriving DecidableEq, Repr

/-- Modelled from the spec: the type `in` of this package, the source a rule reads
(its declaration is not in `param_info.go`; the spec lists the sources). -/
inductive In
  | path | query | header | cookie | form | json | protobuf | raw_body
  deriving DecidableEq, Repr

/-- Modelled from the spec: the type `codec` of this package (its declaration is not in
`param_info.go`): the three codecs `bindOrRequireBody` names, and any other tag. -/
inductive codec
  | bodyForm
  | bodyJSON
  | bodyProtobuf
  | unknown (tag : Nat)
  deriving DecidableEq, Repr

/-- Modelled from the spec: the record `tagInfo` of this package (its declaration is not
in `param_info.go`), with the fields `param_info.go` reads; the three errors are built
once when the rule is built. -/
structure tagInfo where
  paramIn : In
  paramName : GoString
  required : Bool
  namePath : GoString
  requiredError : GoError
  typeError : GoError
  contentTypeError : GoError
  deriving DecidableEq, Repr

/-- The part of `reflect.StructField` that `paramInfo` reads. -/
structure StructField where
  Name : GoString
  deriving DecidableEq, Repr

/-- The struct `paramInfo` (without `bindErrFactory`, which no method below calls). -/
structure paramInfo where
  fieldSelector : GoString
  structField : StructField
  tagInfos : List tagInfo
  deriving DecidableEq, Repr

/-- Modelled from the spec: the interface `PathParams` of this package, a single-valued
lookup by name. -/
structure PathParams where
  Get : GoString → GoString × Bool

/-- The part of `http.Cookie` that `bindCookie` reads. -/
structure Cookie where
  Name : GoString
  Value : GoString
  deriving DecidableEq, Repr

/-- A Go `map[string][]string` (`url.Values`, `http.Header`, the post form), as the list
of its entries; a lookup takes the first entry with the key. -/
abbrev MapStrings := List (GoString × List GoString)

/-- The map index expression `values[key]` with its `ok` flag (`none` is `ok = false`). -/
def mapIndex {α : Type} (key : GoString) : List (GoString × α) → Option α
  | [] => none
  | (k, x) :: rest => if k = key then some x else mapIndex key rest

/-! ## The selector engine (`tagexpr`) -/

/-- Modelled from the spec: the storage that a selector of the target instance leads
to. `present` tells whether the whole path to the field has storage now; `store` is the
field's `reflect.Value` (when the path is not populated: the one that initialising the
path allocates). -/
structure Slot where
  present : Bool
  store : RValue
  deriving DecidableEq, Repr

/-- Modelled from the spec: the target instance behind a `*tagexpr.TagExpr`, as the
slots of the selectors it knows. -/
structure TagExpr where
  fields : List (GoString × Slot)
  deriving DecidableEq, Repr

/-- Modelled from the spec: a `*tagexpr.FieldHandler`. -/
structure FieldHandler where
  selector : GoString
  slot : Slot
  deriving DecidableEq, Repr

/-- Applies `f` to the slot of `sel` (the first entry with that selector). -/
def modifySlot (sel : GoString) (f : Slot → Slot) : List (GoString × Slot) → List (GoString × Slot)
  | [] => []
  | (k, s) :: rest => if k = sel then (k, f s) :: rest else (k, s) :: modifySlot sel f rest

/-- Modelled from the spec: method `TagExpr.Field`, the handle of a selector and
whether the selector is known (`none` is `found = false`). -/
def TagExpr.Field (expr : TagExpr) (fieldSelector : GoString) : Option FieldHandler :=
  (mapIndex fieldSelector expr.fields).map (FieldHandler.mk fieldSelector)

/-- The target instance after the path of `sel` has been allocated. -/
def TagExpr.init (expr : TagExpr) (sel : GoString) : TagExpr :=
  ⟨modifySlot sel (fun s => ⟨true, s.store⟩) expr.fields⟩

/-- Modelled from the spec: method `FieldHandler.Value(initZero)`. With `initZero` the
path is allocated and the field's value returned; without it the target is not touched
and the value is the zero `Value` unless the path is populated. -/
def FieldHandler.Value (fh : FieldHandler) (expr : TagExpr) (initZero : Bool) : TagExpr × RValue :=
  if initZero then
    (expr.init fh.selector, fh.slot.store)
  else
    (expr, if fh.slot.present then fh.slot.store else RValue.invalid)

/-- The target instance after an assignment through the handle of `sel`: `v` is the
handle's value after the assignment. -/
def TagExpr.write (expr : TagExpr) (sel : GoString) (v : RValue) : TagExpr :=
  ⟨modifySlot sel (fun s => ⟨s.present, v⟩) expr.fields⟩

/-- The `reflect.Value` of the field of `sel` as the target instance holds it now. -/
def TagExpr.fieldValue (expr : TagExpr) (sel : GoString) : Option RValue :=
  (mapIndex sel expr.fields).map Slot.store

/-! ## `param_info.go` -/

/-- The loop of `paramInfo.name`: the `paramName` of the first rule whose source is
`json`, the empty string when there is none. -/
def nameLoop : List tagInfo → GoString
  | [] => []
  | info :: rest => if info.paramIn = In.json then info.paramName else nameLoop rest

/-- Method `paramInfo.name`. -/
def paramInfo.name (p : paramInfo) (_paramIn : In) : GoString :=
  let name := nameLoop p.tagInfos
  if name = [] then p.structField.Name else name

/-- Method `paramInfo.getField`: the target instance it leaves, the value, the error. -/
def paramInfo.getField (p : paramInfo) (expr : TagExpr) (initZero : Bool) :
    TagExpr × RValue × Option GoError :=
  match expr.Field p.fieldSelector with
  | some fh =>
    match fh.Value expr initZero with
    | (expr1, v) => if v.IsValid then (expr1, v, none) else (expr1, RValue.invalid, none)
  | none => (expr, RValue.invalid, none)

/-- Equality of outcomes is decidable. -/
instance instDecidableEqExcept {ε α : Type} [DecidableEq ε] [DecidableEq α] :
    DecidableEq (Except ε α)
  | Except.ok a, Except.ok b =>
    if h : a = b then isTrue (by rw [h]) else isFalse (fun h1 => h (Except.ok.inj h1))
  | Except.error a, Except.error b =>
    if h : a = b then isTrue (by rw [h]) else isFalse (fun h1 => h (Except.error.inj h1))
  | Except.ok _, Except.error _ => isFalse (fun h => Except.noConfusion h)
  | Except.error _, Except.ok _ => isFalse (fun h => Except.noConfusion h)

/-- The index expression `a[0]`. -/
def index0 (a : List GoString) : Except Panic GoString :=
  match a with
  | [] => Except.error Panic.indexOutOfRange
  | x :: _ => Except.ok x

/-- The integer cases of `setStringSlice` share one shape: parse `a[0]` with `bitSize`,
on success `SetInt` and return nil, otherwise leave the switch and return
`info.typeError`. -/
def setInt (env : Env) (info : tagInfo) (v : RValue) (a : List GoString) (bitSize : Nat) :
    Except Panic (RValue × Option GoError) :=
  match index0 a with
  | Except.error e => Except.error e
  | Except.ok a0 =>
    match ParseInt a0 bitSize with
    | (i, none) => Except.ok (v.SetInt env i, none)
    | (_, some _) => Except.ok (v, some info.typeError)

/-- The unsigned cases of `setStringSlice`, as `setInt` with `ParseUint` and `SetUint`. -/
def setUint (env : Env) (info : tagInfo) (v : RValue) (a : List GoString) (bitSize : Nat) :
    Except Panic (RValue × Option GoError) :=
  match index0 a with
  | Except.error e => Except.error e
  | Except.ok a0 =>
    match ParseUint a0 bitSize with
    | (i, none) => Except.ok (v.SetUint env i, none)
    | (_, some _) => Except.ok (v, some info.typeError)

/-- The float cases of `setStringSlice`: parse `a[0]`, on success `SetFloat`; nil is
returned in both cases. -/
def setFloat (env : Env) (v : RValue) (a : List GoString) (bitSize : Nat) :
    Except Panic (RValue × Option GoError) :=
  match index0 a with
  | Except.error e => Except.error e
  | Except.ok a0 =>
    match env.ParseFloat a0 bitSize with
    | some f => Except.ok (v.SetFloat f, none)
    | none => Except.ok (v, none)

/-- Function `setStringSlice`: the handle after the call and the error returned. -/
def setStringSlice (env : Env) (info : tagInfo) (v : RValue) (a : List GoString) :
    Except Panic (RValue × Option GoError) :=
  match (DereferenceValue v).kind with
  | Kind.String =>
    match index0 a with
    | Except.error e => Except.error e
    | Except.ok a0 =>
      match v.Set (Value.ofString a0) with
      | Except.error e => Except.error e
      | Except.ok v1 => Except.ok (v1, none)
  | Kind.Bool =>
    match index0 a with
    | Except.error e => Except.error e
    | Except.ok a0 =>
      match ParseBool a0 with
      | some bol => Except.ok (v.SetBool bol, none)
      | none => Except.ok (v, none)
  | Kind.Float32 => setFloat env v a 32
  | Kind.Float64 => setFloat env v a 64
  | Kind.Int64 => setInt env info v a 64
  | Kind.Int => setInt env info v a 64
  | Kind.Int32 => setInt env info v a 32
  | Kind.Int16 => setInt env info v a 16
  | Kind.Int8 => setInt env info v a 8
  | Kind.Uint64 => setUint env info v a 64
  | Kind.Uint => setUint env info v a 64
  | Kind.Uint32 => setUint env info v a 32
  | Kind.Uint16 => setUint env info v a 16
  | Kind.Uint8 => setUint env info v a 8
  | Kind.Slice =>
    match env.stringsToValue (DereferenceValue v).elemKind a with
    | Except.ok vv =>
      match v.Set (Value.ofSlice (DereferenceValue v).elemKind vv) with
      | Except.error e => Except.error e
      | Except.ok v1 => Except.ok (v1, none)
    | Except.error _ => Except.ok (v, some info.typeError)
  | _ => Except.ok (v, some info.typeError)

/-- Method `paramInfo.bindStringSlice`: the target instance after the call and the
error returned. -/
def paramInfo.bindStringSlice (env : Env) (p : paramInfo) (info : tagInfo) (expr : TagExpr)
    (a : List GoString) : Except Panic (TagExpr × Option GoError) :=
  match p.getField expr true with
  | (expr1, v, err) =>
    if err ≠ none ∨ v.IsValid = false then
      Except.ok (expr1, err)
    else
      match setStringSlice env info v a with
      | Except.error e => Except.error e
      | Except.ok (v1, e) => Except.ok (expr1.write p.fieldSelector v1, e)

/-- Method `paramInfo.bindMapStrings`: the target instance after the call, the bound
flag and the error. -/
def paramInfo.bindMapStrings (env : Env) (p : paramInfo) (info : tagInfo) (expr : TagExpr)
    (values : MapStrings) : Except Panic (TagExpr × Bool × Option GoError) :=
  match mapIndex info.paramName values with
  | none =>
    if info.required then Except.ok (expr, false, some info.requiredError)
    else Except.ok (expr, false, none)
  | some r =>
    if r.length = 0 then
      if info.required then Except.ok (expr, false, some info.requiredError)
      else Except.ok (expr, false, none)
    else
      match p.bindStringSlice env info expr r with
      | Except.error e => Except.error e
      | Except.ok (expr1, err) => Except.ok (expr1, true, err)

/-- Method `paramInfo.bindPath`. -/
def paramInfo.bindPath (env : Env) (p : paramInfo) (info : tagInfo) (expr : TagExpr)
    (pathParams : PathParams) : Except Panic (TagExpr × Bool × Option GoError) :=
  match pathParams.Get info.paramName with
  | (r, found) =>
    if found = false then
      if info.required then Except.ok (expr, false, some info.requiredError)
      else Except.ok (expr, false, none)
    else
      match p.bindStringSlice env info expr [r] with
      | Except.error e => Except.error e
      | Except.ok (expr1, err) => Except.ok (expr1, true, err)

/-- Method `paramInfo.bindQuery`. -/
def paramInfo.bindQuery (env : Env) (p : paramInfo) (info : tagInfo) (expr : TagExpr)
    (queryValues : MapStrings) : Except Panic (TagExpr × Bool × Option GoError) :=
  p.bindMapStrings env info expr queryValues

/-- Method `paramInfo.bindHeader`. -/
def paramInfo.bindHeader (env : Env) (p : paramInfo) (info : tagInfo) (expr : TagExpr)
    (header : MapStrings) : Except Panic (TagExpr × Bool × Option GoError) :=
  p.bindMapStrings env info expr header

/-- The loop of `paramInfo.bindCookie`: the values of the cookies named `name`,
appended to `r` in the order of the list. -/
def cookieValues (name : GoString) (cookies : List Cookie) : List GoString :=
  cookies.foldl (fun r c => if c.Name = name then r ++ [c.Value] else r) []

/-- Method `paramInfo.bindCookie`. -/
def paramInfo.bindCookie (env : Env) (p : paramInfo) (info : tagInfo) (expr : TagExpr)
    (cookies : List Cookie) : Except Panic (TagExpr × Option GoError) :=
  let r := cookieValues info.paramName cookies
  if r.length = 0 then
    if info.required then Except.ok (expr, some info.requiredError)
    else Except.ok (expr, none)
  else
    p.bindStringSlice env info expr r

/-- Method `paramInfo.bindRawBody`: the target instance after the call and the error. -/
def paramInfo.bindRawBody (p : paramInfo) (info : tagInfo) (expr : TagExpr)
    (bodyBytes : List Nat) : Except Panic (TagExpr × Option GoError) :=
  if bodyBytes.length = 0 then
    if info.required then Except.ok (expr, some info.requiredError) else Except.ok (expr, none)
  else
    match p.getField expr true with
    | (expr1, v, err) =>
      if err ≠ none ∨ v.IsValid = false then
        Except.ok (expr1, err)
      else
        match (DereferenceValue v).kind with
        | Kind.Slice =>
          if (DereferenceValue v).elemKind ≠ Kind.Uint8 then
            Except.ok (expr1, some info.typeError)
          else
            match v.Set (Value.ofSlice Kind.Uint8 (bodyBytes.map Scalar.uint)) with
            | Except.error e => Except.error e
            | Except.ok v1 => Except.ok (expr1.write p.fieldSelector v1, none)
        | Kind.String =>
          match v.Set (Value.ofString bodyBytes) with
          | Except.error e => Except.error e
          | Except.ok v1 => Except.ok (expr1.write p.fieldSelector v1, none)
        | _ => Except.ok (expr1, some info.typeError)

/-- Method `paramInfo.checkRequireProtobuf`. -/
def paramInfo.checkRequireProtobuf (p : paramInfo) (info : tagInfo) (expr : TagExpr)
    (checkOpt : Bool) : TagExpr × Option GoError :=
  if checkOpt = true ∧ info.required = false then
    match p.getField expr false with
    | (expr1, v, err) =>
      if err ≠ none ∨ v.IsValid = false then (expr1, some info.requiredError)
      else (expr1, none)
  else
    (expr, none)

/-- Method `paramInfo.checkRequireJSON`. -/
def paramInfo.checkRequireJSON (env : Env) (p : paramInfo) (info : tagInfo) (expr : TagExpr)
    (bodyString : GoString) (checkOpt : Bool) : TagExpr × Option GoError :=
  if checkOpt = true ∨ info.required = true then
    if env.gjsonExists bodyString info.namePath = false then
      (expr, some info.requiredError)
    else
      match p.getField expr false with
      | (expr1, v, err) =>
        if err ≠ none ∨ v.IsValid = false then (expr1, some info.requiredError)
        else (expr1, none)
  else
    (expr, none)

/-- Method `paramInfo.bindOrRequireBody`. -/
def paramInfo.bindOrRequireBody (env : Env) (p : paramInfo) (info : tagInfo) (expr : TagExpr)
    (bodyCodec : codec) (bodyString : GoString) (postForm : MapStrings) (checkOpt : Bool) :
    Except Panic (TagExpr × Bool × Option GoError) :=
  match bodyCodec with
  | codec.bodyForm => p.bindMapStrings env info expr postForm
  | codec.bodyJSON =>
    match p.checkRequireJSON env info expr bodyString checkOpt with
    | (expr1, err) => Except.ok (expr1, decide (err = none), err)
  | codec.bodyProtobuf =>
    match p.checkRequireProtobuf info expr checkOpt with
    | (expr1, err) => Except.ok (expr1, decide (err = none), err)
  | codec.unknown _ => Except.ok (expr, false, some info.contentTypeError)

/-! ## Notions used to state the properties -/

/-- The number that a token made of one or more decimal digits denotes (leading zeros
allowed); `none` when the token is empty or holds another byte. -/
def digitsValue (s : GoString) : Option Nat :=
  if s ≠ [] ∧ ∀ c ∈ s, 48 ≤ c ∧ c ≤ 57 then
    some (s.foldl (fun a c => a * 10 + (c - 48)) 0)
  else
    none

/-- The integer that a token made of an optional sign and one or more decimal digits
denotes; `none` when the token is not of that form. -/
def signedValue (s : GoString) : Option Int :=
  match s with
  | [] => none
  | c :: rest =>
    if c = 45 then
      match digitsValue rest with
      | some n => some (-(n : Int))
      | none => none
    else if c = 43 then
      match digitsValue rest with
      | some n => some (n : Int)
      | none => none
    else
      match digitsValue (c :: rest) with
      | some n => some (n : Int)
      | none => none

/-- The signed integer kinds. -/
def signedKinds : List Kind := [Kind.Int, Kind.Int8, Kind.Int16, Kind.Int32, Kind.Int64]

/-- The unsigned integer kinds that `setStringSlice` handles. -/
def unsignedKinds : List Kind := [Kind.Uint, Kind.Uint8, Kind.Uint16, Kind.Uint32, Kind.Uint64]

/-- The kinds that have a case in the switch of `setStringSlice`. -/
def supportedKinds : List Kind :=
  [Kind.String, Kind.Bool, Kind.Float32, Kind.Float64] ++ signedKinds ++ unsignedKinds ++ [Kind.Slice]

/-- The `bitSize` that `setStringSlice` passes to `strconv` for an integer or float kind. -/
def parseBitSize : Kind → Nat
  | Kind.Int => 64
  | Kind.Int8 => 8
  | Kind.Int16 => 16
  | Kind.Int32 => 32
  | Kind.Int64 => 64
  | Kind.Uint => 64
  | Kind.Uint8 => 8
  | Kind.Uint16 => 16
  | Kind.Uint32 => 32
  | Kind.Uint64 => 64
  | Kind.Float32 => 32
  | Kind.Float64 => 64
  | _ => 0

/-- The least value of an integer kind. -/
def kindMin (env : Env) (k : Kind) : Int :=
  if k ∈ signedKinds then -((2 ^ (kindBits env k - 1) : Nat) : Int) else 0

/-- The greatest value of an integer kind. -/
def kindMax (env : Env) (k : Kind) : Int :=
  if k ∈ signedKinds then ((2 ^ (kindBits env k - 1) : Nat) : Int) - 1
  else ((2 ^ kindBits env k : Nat) : Int) - 1

/-- The content of an integer field of kind `k` that holds `n`. -/
def intScalar (k : Kind) (n : Int) : Scalar :=
  if k ∈ signedKinds then Scalar.int n else Scalar.uint n.toNat

/-- Modelled from the spec: the conversion of one token to an element of kind `elemKind`
inside `stringsToValue`, by the rule of the scalar of that kind (the token itself for a
string, the parsed token for a boolean, a float or an integer of the kind's bit size); a
token that does not parse makes the conversion fail. -/
def elemToValue (env : Env) (elemKind : Kind) (t : GoString) : Except GoString Scalar :=
  if elemKind = Kind.String then Except.ok (Scalar.str t)
  else if elemKind = Kind.Bool then
    match ParseBool t with
    | some b => Except.ok (Scalar.bool b)
    | none => Except.error (str "invalid syntax")
  else if elemKind = Kind.Float32 ∨ elemKind = Kind.Float64 then
    match env.ParseFloat t (parseBitSize elemKind) with
    | some f => Except.ok (Scalar.float f)
    | none => Except.error (str "invalid syntax")
  else if elemKind ∈ signedKinds then
    match ParseInt t (parseBitSize elemKind) with
    | (i, none) => Except.ok (Scalar.int (wrapInt (kindBits env elemKind) i))
    | (_, some _) => Except.error (str "invalid syntax")
  else if elemKind ∈ unsignedKinds then
    match ParseUint t (parseBitSize elemKind) with
    | (n, none) => Except.ok (Scalar.uint (n % 2 ^ kindBits env elemKind))
    | (_, some _) => Except.error (str "invalid syntax")
  else Except.error (str "unsupported element kind")

/-- Modelled from the spec: function `stringsToValue` of this package (it is not in
`param_info.go`): all the tokens are parsed, in order, into a new sequence of the element
type by the per-element rules; the whole conversion fails when one token fails. -/
def stringsToValueModel (env : Env) (elemKind : Kind) : List GoString → Except GoString (List Scalar)
  | [] => Except.ok []
  | t :: rest =>
    match elemToValue env elemKind t with
    | Except.error e => Except.error e
    | Except.ok x =>
      match stringsToValueModel env elemKind rest with
      | Except.error e => Except.error e
      | Except.ok xs => Except.ok (x :: xs)

/-! ## Concrete rules and targets -/

/-- An environment for the examples: a 64-bit platform; the float parser and the JSON
path test are not exercised; the element conversion turns tokens into strings for a
slice of strings and fails for another element kind. -/
def exampleEnv : Env where
  IntSize := 64
  ParseFloat := fun _ _ => none
  stringsToValue := fun k a =>
    if k = Kind.String then Except.ok (a.map Scalar.str) else Except.error (str "unsupported")
  gjsonExists := fun _ _ => false

/-- The rule of source `src` that reads the key `key`. -/
def exampleRule (src : In) (key : String) (required : Bool) : tagInfo where
  paramIn := src
  paramName := str key
  required := required
  namePath := str key
  requiredError := ⟨str key, str "missing required parameter"⟩
  typeError := ⟨str key, str "parameter type does not match binding data"⟩
  contentTypeError := ⟨str key, str "does not support binding to the content type body"⟩

/-- A field `F` with the one rule `rule`. -/
def exampleParam (rule : tagInfo) : paramInfo where
  fieldSelector := str "F"
  structField := ⟨str "F"⟩
  tagInfos := [rule]

/-- A settable location of kind `k` (element kind `ek`) holding `d`, of the predeclared
type of its kind or, for a slice, of the type `[]E` with `E` the predeclared type of the
element kind. -/
def exampleField (k ek : Kind) (d : Data) : RValue :=
  RValue.loc ⟨k, ek, false, false⟩ d

/-- A settable location of a defined string type (`type MyString string`) holding `d`. -/
def definedStringField (d : Data) : RValue :=
  RValue.loc ⟨Kind.String, Kind.Invalid, true, false⟩ d

/-- A settable location of type `[]E` holding `d`, where `E` is a defined type of kind
`ek` (`[]MyInt` with `type MyInt int64`). -/
def definedElemSliceField (ek : Kind) (d : Data) : RValue :=
  RValue.loc ⟨Kind.Slice, ek, false, true⟩ d

/-- A target instance whose field `F` is `v`, its path not populated yet. -/
def exampleTarget (v : RValue) : TagExpr :=
  ⟨[(str "F", ⟨false, v⟩)]⟩

/-- The target instance `exampleTarget v` once the path of `F` is populated. -/
def exampleBound (v : RValue) : TagExpr :=
  ⟨[(str "F", ⟨true, v⟩)]⟩

/-- An environment whose element conversion is the one modelled from the spec (64-bit
platform, float parser not exercised). -/
def modelEnv : Env where
  IntSize := 64
  ParseFloat := fun _ _ => none
  stringsToValue := stringsToValueModel exampleEnv
  gjsonExists := fun _ _ => false

/-- An environment for the JSON examples: as `exampleEnv`, with a JSON path test that
agrees with `gjson` on the bodies of the examples: the path `user.age` resolves in
`{"user":{"age":3}}` and does not resolve in `{"user":{}}` nor in the empty body. -/
def jsonEnv : Env where
  IntSize := 64
  ParseFloat := fun _ _ => none
  stringsToValue := fun k a =>
    if k = Kind.String then Except.ok (a.map Scalar.str) else Except.error (str "unsupported")
  gjsonExists := fun body path =>
    decide (body = str "\x7b\"user\":\x7b\"age\":3\x7d\x7d" ∧ path = str "user.age")

/-! ## Lemmas on `strconv` -/

theorem foldl_digits_ge (s : List Nat) (acc : Nat) :
    acc ≤ s.foldl (fun a c => a * 10 + (c - 48)) acc := by
  induction s generalizing acc with
  | nil => simp
  | cons c cs ih =>
    simp only [List.foldl_cons]
    have := ih (acc * 10 + (c - 48))
    omega

theorem parseUintLoop_complete (M : Nat) (hM : M < 2 ^ 64) (s : List Nat) (acc : Nat)
    (hd : ∀ c ∈ s, 48 ≤ c ∧ c ≤ 57)
    (hle : s.foldl (fun a c => a * 10 + (c - 48)) acc ≤ M) :
    parseUintLoop M s acc = (s.foldl (fun a c => a * 10 + (c - 48)) acc, none) := by
  induction s generalizing acc with
  | nil => simp [parseUintLoop]
  | cons c cs ih =>
    have hc := hd c (List.mem_cons_self _ _)
    have hcs : ∀ x ∈ cs, 48 ≤ x ∧ x ≤ 57 := fun x hx => hd x (List.mem_cons_of_mem _ hx)
    simp only [List.foldl_cons] at hle ⊢
    have hge := foldl_digits_ge cs (acc * 10 + (c - 48))
    have h1 : acc * 10 + (c - 48) ≤ M := le_trans hge hle
    norm_num at hM
    have h2 : (acc * 10) % 2 ^ 64 = acc * 10 := Nat.mod_eq_of_lt (by norm_num; omega)
    have h3 : (acc * 10 + (c - 48)) % 2 ^ 64 = acc * 10 + (c - 48) :=
      Nat.mod_eq_of_lt (by norm_num; omega)
    have h4 : ¬ acc ≥ parseUintCutoff := by
      simp only [parseUintCutoff]; norm_num; omega
    rw [parseUintLoop]
    simp only [hc, and_self, if_true, h4, if_false, h2, h3]
    rw [if_neg (by omega)]
    exact ih _ hcs hle

theorem parseUintLoop_sound (M : Nat) (s : List Nat) (acc : Nat)
    (hacc : acc ≤ M) (hok : (parseUintLoop M s acc).2 = none) :
    (∀ c ∈ s, 48 ≤ c ∧ c ≤ 57) ∧ s.foldl (fun a c => a * 10 + (c - 48)) acc ≤ M := by
  induction s generalizing acc with
  | nil => simp [hacc]
  | cons c cs ih =>
    rw [parseUintLoop] at hok
    by_cases hc : 48 ≤ c ∧ c ≤ 57
    · rw [if_pos hc] at hok
      by_cases h4 : acc ≥ parseUintCutoff
      · rw [if_pos h4] at hok; simp at hok
      · rw [if_neg h4] at hok
        simp only [parseUintCutoff] at h4
        norm_num at h4
        have h2 : (acc * 10) % 2 ^ 64 = acc * 10 := Nat.mod_eq_of_lt (by norm_num; omega)
        simp only [h2] at hok
        by_cases h5 : (acc * 10 + (c - 48)) % 2 ^ 64 < acc * 10 ∨ (acc * 10 + (c - 48)) % 2 ^ 64 > M
        · rw [if_pos h5] at hok; simp at hok
        · rw [if_neg h5] at hok
          have h6 : (acc * 10 + (c - 48)) % 2 ^ 64 = acc * 10 + (c - 48) := by
            norm_num at h5 ⊢
            omega
          rw [h6] at hok h5
          have := ih (acc * 10 + (c - 48)) (by omega) hok
          refine ⟨?_, by simpa using this.2⟩
          intro x hx
          rcases List.mem_cons.mp hx with rfl | hx
          · exact hc
          · exact this.1 x hx
    · rw [if_neg hc] at hok; simp at hok

theorem parseUint_maxVal (b : Nat) (hb : b = 8 ∨ b = 16 ∨ b = 32 ∨ b = 64) :
    ((2 ^ b) % 2 ^ 64 + 2 ^ 64 - 1) % 2 ^ 64 = 2 ^ b - 1 ∧ 2 ^ b - 1 < 2 ^ 64 := by
  rcases hb with rfl | rfl | rfl | rfl <;> norm_num

theorem ParseUint_of_value (b : Nat) (hb : b = 8 ∨ b = 16 ∨ b = 32 ∨ b = 64)
    (s : GoString) (n : Nat) (hv : digitsValue s = some n) (hn : n < 2 ^ b) :
    ParseUint s b = (n, none) := by
  unfold digitsValue at hv
  split at hv
  · rename_i h
    have hn' : s.foldl (fun a c => a * 10 + (c - 48)) 0 = n := by simpa using hv
    unfold ParseUint
    rw [if_neg h.1]
    simp only [(parseUint_maxVal b hb).1]
    rw [parseUintLoop_complete _ (parseUint_maxVal b hb).2 s 0 h.2 (by omega), hn']
  · simp at hv

theorem ParseUint_sound (b : Nat) (hb : b = 8 ∨ b = 16 ∨ b = 32 ∨ b = 64)
    (s : GoString) (hok : (ParseUint s b).2 = none) :
    ∃ n, digitsValue s = some n ∧ n < 2 ^ b ∧ ParseUint s b = (n, none) := by
  unfold ParseUint at hok
  by_cases hs : s = []
  · rw [if_pos hs] at hok; simp at hok
  · rw [if_neg hs] at hok
    simp only [(parseUint_maxVal b hb).1] at hok
    have h := parseUintLoop_sound _ s 0 (Nat.zero_le _) hok
    have hpos : 0 < 2 ^ b := Nat.pow_pos (by norm_num)
    have hv : digitsValue s = some (s.foldl (fun a c => a * 10 + (c - 48)) 0) := by
      unfold digitsValue
      rw [if_pos ⟨hs, h.1⟩]
    exact ⟨_, hv, by omega, ParseUint_of_value b hb s _ hv (by omega)⟩

theorem FormatUint_digits (n : Nat) : ∀ c ∈ FormatUint n, 48 ≤ c ∧ c ≤ 57 := by
  intro c hc
  unfold FormatUint at hc
  split at hc
  · simp at hc; omega
  · simp only [List.mem_map, List.mem_reverse] at hc
    obtain ⟨d, hd, rfl⟩ := hc
    have := Nat.digits_lt_base (by norm_num : 1 < 10) hd
    omega

theorem FormatUint_ne_nil (n : Nat) : FormatUint n ≠ [] := by
  unfold FormatUint
  split
  · simp
  · rename_i h
    simp [Nat.digits_ne_nil_iff_ne_zero, h]

theorem foldl_digits_map (L : List Nat) :
    (L.reverse.map (fun d => 48 + d)).foldl (fun a c => a * 10 + (c - 48)) 0 = Nat.ofDigits 10 L := by
  induction L with
  | nil => simp
  | cons d ds ih =>
    simp only [List.reverse_cons, List.map_append, List.foldl_append, ih, List.map_cons,
      List.map_nil, List.foldl_cons, List.foldl_nil, Nat.ofDigits_cons]
    omega

theorem digitsValue_FormatUint (n : Nat) : digitsValue (FormatUint n) = some n := by
  unfold digitsValue
  rw [if_pos ⟨FormatUint_ne_nil n, FormatUint_digits n⟩]
  congr 1
  unfold FormatUint
  split
  · rename_i h; simp [h]
  · rw [foldl_digits_map, Nat.ofDigits_digits]

theorem parseUintLoop_range (M : Nat) (s : List Nat) (acc : Nat)
    (h : (parseUintLoop M s acc).2 = some NumError.ErrRange) : (parseUintLoop M s acc).1 = M := by
  induction s generalizing acc with
  | nil => simp [parseUintLoop] at h
  | cons c cs ih =>
    rw [parseUintLoop] at h ⊢
    split
    · rename_i hc
      rw [if_pos hc] at h
      split
      · rfl
      · rename_i h4
        rw [if_neg h4] at h
        simp only at h ⊢
        split
        · rfl
        · rename_i h5
          rw [if_neg h5] at h
          exact ih _ h
    · rename_i hc
      rw [if_neg hc] at h
      simp at h

theorem ParseUint_range (b : Nat) (hb : b = 8 ∨ b = 16 ∨ b = 32 ∨ b = 64) (s : GoString)
    (h : (ParseUint s b).2 = some NumError.ErrRange) : (ParseUint s b).1 = 2 ^ b - 1 := by
  unfold ParseUint at h ⊢
  by_cases hs : s = []
  · rw [if_pos hs] at h; simp at h
  · rw [if_neg hs] at h ⊢
    simp only [(parseUint_maxVal b hb).1] at h ⊢
    exact parseUintLoop_range _ s 0 h

theorem wrapInt_of_range (x : Int) (h1 : -9223372036854775808 ≤ x) (h2 : x < 9223372036854775808) :
    wrapInt 64 x = x := by
  unfold wrapInt
  norm_num
  omega

theorem wrapInt_neg_wrapInt (n : Int) (h0 : 0 ≤ n) (h1 : n ≤ 9223372036854775808) :
    wrapInt 64 (-(wrapInt 64 n)) = -n := by
  unfold wrapInt
  norm_num
  omega

theorem signedValue_cons (c : Nat) (rest : GoString) :
    signedValue (c :: rest) =
      (if c = 45 then
        match digitsValue rest with
        | some n => some (-(n : Int))
        | none => none
      else if c = 43 then
        match digitsValue rest with
        | some n => some (n : Int)
        | none => none
      else
        match digitsValue (c :: rest) with
        | some n => some (n : Int)
        | none => none) := rfl

theorem ParseInt_cons (c : Nat) (rest : GoString) (b : Nat) :
    ParseInt (c :: rest) b =
      (match ParseUint (if c = 43 ∨ c = 45 then rest else c :: rest) b with
        | (_, some NumError.ErrSyntax) => ((0 : Int), some NumError.ErrSyntax)
        | (un, _) =>
          if decide (c = 45) = false ∧ un ≥ 2 ^ (b - 1) then
            (((2 ^ (b - 1) - 1 : Nat) : Int), some NumError.ErrRange)
          else if decide (c = 45) = true ∧ un > 2 ^ (b - 1) then
            (-((2 ^ (b - 1) : Nat) : Int), some NumError.ErrRange)
          else
            (if decide (c = 45) then wrapInt 64 (-(wrapInt 64 (un : Int)))
              else wrapInt 64 (un : Int), none)) := rfl

theorem ParseInt_of_value (b : Nat) (hb : b = 8 ∨ b = 16 ∨ b = 32 ∨ b = 64)
    (s : GoString) (i : Int) (hv : signedValue s = some i)
    (hlo : -(2 ^ (b - 1) : Int) ≤ i) (hhi : i < 2 ^ (b - 1)) :
    ParseInt s b = (i, none) := by
  cases s with
  | nil => simp [signedValue] at hv
  | cons c rest =>
    have hb63 : (2 : Int) ^ (b - 1) ≤ 2 ^ 63 ∧ (2 : Nat) ^ (b - 1) < 2 ^ b := by
      rcases hb with rfl | rfl | rfl | rfl <;> norm_num
    have hcast : ((2 ^ (b - 1) : Nat) : Int) = (2 : Int) ^ (b - 1) := by norm_cast
    obtain ⟨hb63a, hb63b⟩ := hb63
    norm_num at hb63a
    rw [signedValue_cons] at hv
    rw [ParseInt_cons]
    by_cases h45 : c = 45
    · rw [if_pos h45] at hv
      cases hdv : digitsValue rest with
      | none => simp [hdv] at hv
      | some n =>
        rw [hdv] at hv
        simp only [Option.some.injEq] at hv
        subst hv
        have hn : n ≤ 2 ^ (b - 1) := by
          have : (n : Int) ≤ ((2 ^ (b - 1) : Nat) : Int) := by rw [hcast]; omega
          exact_mod_cast this
        rw [if_pos (Or.inr h45), ParseUint_of_value b hb rest n hdv (by omega)]
        simp only [h45, decide_True, Bool.true_eq_false, false_and, if_false, true_and, if_true]
        rw [if_neg (by omega)]
        have hn' : (n : Int) ≤ ((2 ^ (b - 1) : Nat) : Int) := by exact_mod_cast hn
        rw [hcast] at hn'
        rw [wrapInt_neg_wrapInt _ (by omega) (by omega)]
    · have key : ∀ (s1 : GoString) (n : Nat), digitsValue s1 = some n → (n : Int) = i →
          (match ParseUint s1 b with
            | (_, some NumError.ErrSyntax) => ((0 : Int), some NumError.ErrSyntax)
            | (un, _) =>
              if decide (c = 45) = false ∧ un ≥ 2 ^ (b - 1) then
                (((2 ^ (b - 1) - 1 : Nat) : Int), some NumError.ErrRange)
              else if decide (c = 45) = true ∧ un > 2 ^ (b - 1) then
                (-((2 ^ (b - 1) : Nat) : Int), some NumError.ErrRange)
              else
                (if decide (c = 45) then wrapInt 64 (-(wrapInt 64 (un : Int)))
                  else wrapInt 64 (un : Int), none)) = (i, none) := by
        intro s1 n hdv hni
        subst hni
        have hn : n < 2 ^ (b - 1) := by
          have : (n : Int) < ((2 ^ (b - 1) : Nat) : Int) := by rw [hcast]; omega
          exact_mod_cast this
        rw [ParseUint_of_value b hb s1 n hdv (by omega)]
        simp only [h45, decide_False, true_and, Bool.false_eq_true, false_and, if_false]
        rw [if_neg (by omega)]
        rw [wrapInt_of_range _ (by omega) (by omega)]
      rw [if_neg h45] at hv
      by_cases h43 : c = 43
      · rw [if_pos h43] at hv
        cases hdv : digitsValue rest with
        | none => simp [hdv] at hv
        | some n =>
          rw [hdv] at hv
          simp only [Option.some.injEq] at hv
          rw [if_pos (Or.inl h43)]
          exact key rest n hdv hv
      · rw [if_neg h43] at hv
        cases hdv : digitsValue (c :: rest) with
        | none => simp [hdv] at hv
        | some n =>
          rw [hdv] at hv
          simp only [Option.some.injEq] at hv
          rw [if_neg (by simp [h43, h45])]
          exact key (c :: rest) n hdv hv

theorem ParseInt_sound (b : Nat) (hb : b = 8 ∨ b = 16 ∨ b = 32 ∨ b = 64)
    (s : GoString) (hok : (ParseInt s b).2 = none) :
    ∃ i : Int, signedValue s = some i ∧ -(2 ^ (b - 1) : Int) ≤ i ∧ i < 2 ^ (b - 1) := by
  cases s with
  | nil => simp [ParseInt] at hok
  | cons c rest =>
    have hpow : (2 : Nat) ^ b - 1 > 2 ^ (b - 1) := by
      rcases hb with rfl | rfl | rfl | rfl <;> norm_num
    have hcast : ((2 ^ (b - 1) : Nat) : Int) = (2 : Int) ^ (b - 1) := by norm_cast
    rw [ParseInt_cons] at hok
    rw [signedValue_cons]
    cases hpu : ParseUint (if c = 43 ∨ c = 45 then rest else c :: rest) b with
    | mk un e =>
      rw [hpu] at hok
      cases e with
      | some err =>
        cases err with
        | ErrSyntax => simp at hok
        | ErrRange =>
          have hun := ParseUint_range b hb _ (by rw [hpu])
          rw [hpu] at hun
          simp only at hun hok
          by_cases h45 : c = 45
          · simp only [h45, decide_True, Bool.true_eq_false, false_and, if_false, true_and] at hok
            rw [if_pos (by omega)] at hok
            simp at hok
          · simp only [h45, decide_False, true_and] at hok
            rw [if_pos (by omega)] at hok
            simp at hok
      | none =>
        obtain ⟨n, hdv, hn, hpn⟩ := ParseUint_sound b hb _ (by rw [hpu])
        rw [hpu] at hpn
        have hun : un = n := by simpa using hpn
        subst hun
        simp only at hok
        by_cases h45 : c = 45
        · simp only [h45, decide_True, Bool.true_eq_false, false_and, if_false, true_and] at hok
          rw [if_pos (Or.inr h45)] at hdv
          rw [if_pos h45, hdv]
          by_cases hgt : un > 2 ^ (b - 1)
          · rw [if_pos hgt] at hok; simp at hok
          · refine ⟨-(un : Int), rfl, ?_, ?_⟩
            · have : (un : Int) ≤ ((2 ^ (b - 1) : Nat) : Int) := by exact_mod_cast (not_lt.mp hgt)
              rw [hcast] at this; omega
            · have : (0 : Int) < 2 ^ (b - 1) := by positivity
              omega
        · simp only [h45, decide_False, true_and] at hok
          by_cases hge : un ≥ 2 ^ (b - 1)
          · rw [if_pos hge] at hok; simp at hok
          · have hlt : (un : Int) < 2 ^ (b - 1) := by
              have : (un : Int) < ((2 ^ (b - 1) : Nat) : Int) := by exact_mod_cast (not_le.mp hge)
              rw [hcast] at this; exact this
            have hpos : (0 : Int) < 2 ^ (b - 1) := by positivity
            rw [if_neg h45]
            by_cases h43 : c = 43
            · rw [if_pos (Or.inl h43)] at hdv
              rw [if_pos h43, hdv]
              exact ⟨(un : Int), rfl, by omega, hlt⟩
            · rw [if_neg (by simp [h43, h45])] at hdv
              rw [if_neg h43, hdv]
              exact ⟨(un : Int), rfl, by omega, hlt⟩

theorem signedValue_FormatInt (i : Int) : signedValue (FormatInt i) = some i := by
  unfold FormatInt
  by_cases hi : i < 0
  · rw [if_pos hi, signedValue_cons, if_pos rfl, digitsValue_FormatUint]
    simp only [Option.some.injEq]
    omega
  · rw [if_neg hi]
    have hne := FormatUint_ne_nil i.natAbs
    have hdig := FormatUint_digits i.natAbs
    have hdv := digitsValue_FormatUint i.natAbs
    cases hF : FormatUint i.natAbs with
    | nil => exact absurd hF hne
    | cons c rest =>
      rw [hF] at hdig hdv
      have hc := hdig c (List.mem_cons_self _ _)
      rw [signedValue_cons, if_neg (by omega), if_neg (by omega), hdv]
      simp only [Option.some.injEq]
      omega

/-! ## Lemmas on handles and targets -/

theorem DereferenceValue_assign (v : RValue) (t : RType) (d0 d : Data)
    (hv : DereferenceValue v = RValue.loc t d0) :
    DereferenceValue (v.assign d) = RValue.loc t d := by
  induction v with
  | invalid => simp [DereferenceValue] at hv
  | ptr e ih =>
    simp only [DereferenceValue] at hv
    simp only [RValue.assign, DereferenceValue]
    exact ih hv
  | loc t1 d1 =>
    simp only [DereferenceValue, RValue.loc.injEq] at hv
    simp [RValue.assign, DereferenceValue, hv.1]

theorem IsValid_of_DereferenceValue (v : RValue) (t : RType) (d0 : Data)
    (hv : DereferenceValue v = RValue.loc t d0) : v.IsValid = true := by
  cases v with
  | invalid => simp [DereferenceValue] at hv
  | ptr e => rfl
  | loc t1 d1 => rfl

theorem mapIndex_modifySlot (sel : GoString) (f : Slot → Slot) (l : List (GoString × Slot)) :
    mapIndex sel (modifySlot sel f l) = (mapIndex sel l).map f := by
  induction l with
  | nil => rfl
  | cons x rest ih =>
    obtain ⟨k, s⟩ := x
    by_cases hk : k = sel
    · simp [modifySlot, mapIndex, hk]
    · simp [modifySlot, mapIndex, hk, ih]

theorem fieldValue_init (expr : TagExpr) (sel : GoString) :
    (expr.init sel).fieldValue sel = expr.fieldValue sel := by
  simp only [TagExpr.fieldValue, TagExpr.init, mapIndex_modifySlot]
  cases mapIndex sel expr.fields <;> rfl

theorem fieldValue_write (expr : TagExpr) (sel : GoString) (v : RValue) (s : Slot)
    (hf : mapIndex sel expr.fields = some s) :
    (expr.write sel v).fieldValue sel = some v := by
  simp [TagExpr.fieldValue, TagExpr.write, mapIndex_modifySlot, hf]

theorem fieldValue_init_write (expr : TagExpr) (sel : GoString) (v : RValue) (s : Slot)
    (hf : mapIndex sel expr.fields = some s) :
    ((expr.init sel).write sel v).fieldValue sel = some v := by
  simp [TagExpr.fieldValue, TagExpr.write, TagExpr.init, mapIndex_modifySlot, hf]

theorem getField_init (p : paramInfo) (expr : TagExpr) (present : Bool) (v : RValue)
    (hf : mapIndex p.fieldSelector expr.fields = some ⟨present, v⟩) (hv : v.IsValid = true) :
    p.getField expr true = (expr.init p.fieldSelector, v, none) := by
  simp [paramInfo.getField, TagExpr.Field, hf, FieldHandler.Value, hv]

theorem bindStringSlice_found (env : Env) (p : paramInfo) (info : tagInfo) (expr : TagExpr)
    (a : List GoString) (present : Bool) (v : RValue)
    (hf : mapIndex p.fieldSelector expr.fields = some ⟨present, v⟩) (hv : v.IsValid = true) :
    p.bindStringSlice env info expr a =
      (match setStringSlice env info v a with
        | Except.error e => Except.error e
        | Except.ok (v1, e) => Except.ok ((expr.init p.fieldSelector).write p.fieldSelector v1, e)) := by
  simp [paramInfo.bindStringSlice, getField_init p expr present v hf hv, hv]

theorem cookieValues_foldl (name : GoString) (cookies : List Cookie) (r : List GoString) :
    cookies.foldl (fun r c => if c.Name = name then r ++ [c.Value] else r) r =
      r ++ (cookies.filter (fun c => decide (c.Name = name))).map Cookie.Value := by
  induction cookies generalizing r with
  | nil => simp
  | cons c cs ih =>
    by_cases hc : c.Name = name
    · simp [List.foldl_cons, hc, ih, List.filter_cons]
    · simp [List.foldl_cons, hc, ih, List.filter_cons]

theorem cookieValues_eq (name : GoString) (cookies : List Cookie) :
    cookieValues name cookies =
      (cookies.filter (fun c => decide (c.Name = name))).map Cookie.Value := by
  simp [cookieValues, cookieValues_foldl]

theorem cookieValues_none (name : GoString) (cookies : List Cookie)
    (h : ∀ c ∈ cookies, c.Name ≠ name) : cookieValues name cookies = [] := by
  rw [cookieValues_eq]
  simp only [List.map_eq_nil_iff, List.filter_eq_nil_iff, decide_eq_true_eq]
  exact h

/-! ## Lemmas on `setStringSlice` -/

theorem kind_of_loc (v : RValue) (k ek : Kind) (df edf : Bool) (d0 : Data)
    (hv : DereferenceValue v = RValue.loc ⟨k, ek, df, edf⟩ d0) : (DereferenceValue v).kind = k := by
  rw [hv]; rfl

theorem setStringSlice_signed (env : Env) (info : tagInfo) (v : RValue) (a : List GoString)
    (k : Kind) (hk : k ∈ signedKinds) (hv : (DereferenceValue v).kind = k) :
    setStringSlice env info v a = setInt env info v a (parseBitSize k) := by
  simp only [signedKinds, List.mem_cons, List.mem_singleton, List.not_mem_nil, or_false] at hk
  rcases hk with rfl | rfl | rfl | rfl | rfl <;> simp [setStringSlice, hv, parseBitSize]

theorem setStringSlice_unsigned (env : Env) (info : tagInfo) (v : RValue) (a : List GoString)
    (k : Kind) (hk : k ∈ unsignedKinds) (hv : (DereferenceValue v).kind = k) :
    setStringSlice env info v a = setUint env info v a (parseBitSize k) := by
  simp only [unsignedKinds, List.mem_cons, List.mem_singleton, List.not_mem_nil, or_false] at hk
  rcases hk with rfl | rfl | rfl | rfl | rfl <;> simp [setStringSlice, hv, parseBitSize]

theorem parseBitSize_int (k : Kind) (hk : k ∈ signedKinds ∨ k ∈ unsignedKinds) :
    parseBitSize k = 8 ∨ parseBitSize k = 16 ∨ parseBitSize k = 32 ∨ parseBitSize k = 64 := by
  simp only [signedKinds, unsignedKinds, List.mem_cons, List.mem_singleton, List.not_mem_nil,
    or_false] at hk
  rcases hk with (rfl | rfl | rfl | rfl | rfl) | (rfl | rfl | rfl | rfl | rfl) <;>
    simp [parseBitSize]

theorem kindBits_int (env : Env) (hplat : env.IntSize = 32 ∨ env.IntSize = 64) (k : Kind)
    (hk : k ∈ signedKinds ∨ k ∈ unsignedKinds) :
    (kindBits env k = 8 ∨ kindBits env k = 16 ∨ kindBits env k = 32 ∨ kindBits env k = 64) ∧
      kindBits env k ≤ parseBitSize k := by
  simp only [signedKinds, unsignedKinds, List.mem_cons, List.mem_singleton, List.not_mem_nil,
    or_false] at hk
  rcases hk with (rfl | rfl | rfl | rfl | rfl) | (rfl | rfl | rfl | rfl | rfl) <;>
    rcases hplat with h | h <;> simp [kindBits, parseBitSize, h]

theorem wrapInt_id (w : Nat) (hw : w = 8 ∨ w = 16 ∨ w = 32 ∨ w = 64) (x : Int)
    (h1 : -((2 ^ (w - 1) : Nat) : Int) ≤ x) (h2 : x ≤ ((2 ^ (w - 1) : Nat) : Int) - 1) :
    wrapInt w x = x := by
  rcases hw with rfl | rfl | rfl | rfl <;>
    (unfold wrapInt; norm_num at h1 h2 ⊢; omega)

theorem signed_unsigned_disjoint (k : Kind) (hk : k ∈ unsignedKinds) : k ∉ signedKinds := by
  simp only [unsignedKinds, List.mem_cons, List.mem_singleton, List.not_mem_nil, or_false] at hk
  rcases hk with rfl | rfl | rfl | rfl | rfl <;> decide

theorem setStringSlice_int_in_range (env : Env) (hplat : env.IntSize = 32 ∨ env.IntSize = 64)
    (info : tagInfo) (k ek : Kind) (df edf : Bool) (v : RValue) (d0 : Data) (n : Int) (rest : List GoString)
    (hk : k ∈ signedKinds ∨ k ∈ unsignedKinds)
    (hv : DereferenceValue v = RValue.loc ⟨k, ek, df, edf⟩ d0)
    (hn : kindMin env k ≤ n ∧ n ≤ kindMax env k) :
    setStringSlice env info v (FormatInt n :: rest) =
      Except.ok (v.assign (Data.one (intScalar k n)), none) := by
  have hkind := kind_of_loc v k ek _ _ d0 hv
  have hpb := parseBitSize_int k hk
  obtain ⟨hkb, hle⟩ := kindBits_int env hplat k hk
  have hmono : (2 : Nat) ^ (kindBits env k - 1) ≤ 2 ^ (parseBitSize k - 1) ∧
      (2 : Nat) ^ kindBits env k ≤ 2 ^ parseBitSize k :=
    ⟨Nat.pow_le_pow_right (by norm_num) (by omega), Nat.pow_le_pow_right (by norm_num) hle⟩
  have hcast : ((2 ^ (parseBitSize k - 1) : Nat) : Int) = (2 : Int) ^ (parseBitSize k - 1) := by
    norm_cast
  rcases hk with hk | hk
  · rw [setStringSlice_signed env info v _ k hk hkind]
    simp only [kindMin, kindMax, if_pos hk] at hn
    have h1 : (((2 : Nat) ^ (kindBits env k - 1) : Nat) : Int) ≤
        ((2 ^ (parseBitSize k - 1) : Nat) : Int) := by exact_mod_cast hmono.1
    have hparse := ParseInt_of_value (parseBitSize k) hpb (FormatInt n) n (signedValue_FormatInt n)
      (by rw [← hcast]; omega) (by rw [← hcast]; omega)
    simp only [setInt, index0, hparse, RValue.SetInt, hkind, intScalar, if_pos hk]
    rw [wrapInt_id _ hkb n hn.1 hn.2]
  · rw [setStringSlice_unsigned env info v _ k hk hkind]
    have hns := signed_unsigned_disjoint k hk
    simp only [kindMin, kindMax, if_neg hns] at hn
    have hF : FormatInt n = FormatUint n.toNat := by
      unfold FormatInt
      rw [if_neg (by omega)]
      congr 1
      omega
    have hlt : n.toNat < 2 ^ kindBits env k := by
      have h0 : (0 : Nat) < 2 ^ kindBits env k := Nat.pow_pos (by norm_num)
      have : ((n.toNat : Nat) : Int) < ((2 ^ kindBits env k : Nat) : Int) := by
        rw [Int.toNat_of_nonneg hn.1]; omega
      exact_mod_cast this
    have hparse := ParseUint_of_value (parseBitSize k) hpb (FormatUint n.toNat) n.toNat
      (digitsValue_FormatUint _) (by omega)
    simp only [setUint, index0, hF, hparse, RValue.SetUint, hkind, intScalar, if_neg hns]
    rw [Nat.mod_eq_of_lt hlt]

theorem setStringSlice_int_parse_failure (env : Env) (info : tagInfo) (k ek : Kind) (df edf : Bool) (v : RValue)
    (d0 : Data) (a0 : GoString) (rest : List GoString)
    (hv : DereferenceValue v = RValue.loc ⟨k, ek, df, edf⟩ d0)
    (hbad : (k ∈ signedKinds ∧ ∀ n : Int, signedValue a0 = some n →
        n < -(2 ^ (parseBitSize k - 1) : Int) ∨ (2 ^ (parseBitSize k - 1) : Int) ≤ n) ∨
      (k ∈ unsignedKinds ∧ ∀ n : Nat, digitsValue a0 = some n → 2 ^ parseBitSize k ≤ n)) :
    setStringSlice env info v (a0 :: rest) = Except.ok (v, some info.typeError) := by
  have hkind := kind_of_loc v k ek _ _ d0 hv
  rcases hbad with ⟨hk, hbad⟩ | ⟨hk, hbad⟩
  · rw [setStringSlice_signed env info v _ k hk hkind]
    have hpb := parseBitSize_int k (Or.inl hk)
    cases hP : ParseInt a0 (parseBitSize k) with
    | mk i e =>
      cases e with
      | none =>
        obtain ⟨i1, hs, hlo, hhi⟩ := ParseInt_sound (parseBitSize k) hpb a0 (by rw [hP])
        rcases hbad i1 hs with h | h <;> omega
      | some err => simp [setInt, index0, hP]
  · rw [setStringSlice_unsigned env info v _ k hk hkind]
    have hpb := parseBitSize_int k (Or.inr hk)
    cases hP : ParseUint a0 (parseBitSize k) with
    | mk i e =>
      cases e with
      | none =>
        obtain ⟨n1, hs, hlt, _⟩ := ParseUint_sound (parseBitSize k) hpb a0 (by rw [hP])
        have := hbad n1 hs
        omega
      | some err => simp [setUint, index0, hP]

/-! ## The claims -/

/-- C1. A required rule whose source holds no value for its key: `bindPath` (the path
parameters do not hold the key), `bindMapStrings`, `bindQuery`, `bindHeader` and the form
codec of `bindOrRequireBody` (the key is absent or mapped to an empty list) return
`bound = false` with the rule's `requiredError`, `bindCookie` (no cookie has the name)
returns the rule's `requiredError`, and the target instance is returned as it was. -/
theorem C1_required_missing (env : Env) (p : paramInfo) (info : tagInfo) (expr : TagExpr)
    (hreq : info.required = true) :
    (∀ pathParams : PathParams, (pathParams.Get info.paramName).2 = false →
      p.bindPath env info expr pathParams = Except.ok (expr, false, some info.requiredError)) ∧
    (∀ values : MapStrings,
      (mapIndex info.paramName values = none ∨ mapIndex info.paramName values = some []) →
      p.bindMapStrings env info expr values = Except.ok (expr, false, some info.requiredError) ∧
      p.bindQuery env info expr values = Except.ok (expr, false, some info.requiredError) ∧
      p.bindHeader env info expr values = Except.ok (expr, false, some info.requiredError) ∧
      ∀ (bodyString : GoString) (checkOpt : Bool),
        p.bindOrRequireBody env info expr codec.bodyForm bodyString values checkOpt =
          Except.ok (expr, false, some info.requiredError)) ∧
    (∀ cookies : List Cookie, (∀ c ∈ cookies, c.Name ≠ info.paramName) →
      p.bindCookie env info expr cookies = Except.ok (expr, some info.requiredError)) := by
  have hmap : ∀ values : MapStrings,
      (mapIndex info.paramName values = none ∨ mapIndex info.paramName values = some []) →
      p.bindMapStrings env info expr values = Except.ok (expr, false, some info.requiredError) := by
    intro values h
    rcases h with h | h <;> simp [paramInfo.bindMapStrings, h, hreq]
  refine ⟨?_, ?_, ?_⟩
  · intro pathParams h
    unfold paramInfo.bindPath
    cases hg : pathParams.Get info.paramName with
    | mk r found =>
      rw [hg] at h
      simp only at h
      simp [h, hreq]
  · intro values h
    refine ⟨hmap values h, hmap values h, hmap values h, ?_⟩
    intro bodyString checkOpt
    exact hmap values h
  · intro cookies h
    simp [paramInfo.bindCookie, cookieValues_none _ _ h, hreq]

/-- C1, witness: the required query parameter `id` with the empty query map gives
`bound = false` and the rule's `requiredError`; the target is as before. -/
theorem C1_required_missing_witness :
    (exampleRule In.query "id" true).required = true ∧
    (exampleParam (exampleRule In.query "id" true)).bindQuery exampleEnv
      (exampleRule In.query "id" true)
      (exampleTarget (exampleField Kind.Int64 Kind.Invalid (Data.one (Scalar.int 0)))) [] =
      Except.ok (exampleTarget (exampleField Kind.Int64 Kind.Invalid (Data.one (Scalar.int 0))),
        false, some (exampleRule In.query "id" true).requiredError) :=
  ⟨rfl, ((C1_required_missing exampleEnv (exampleParam (exampleRule In.query "id" true))
    (exampleRule In.query "id" true)
    (exampleTarget (exampleField Kind.Int64 Kind.Invalid (Data.one (Scalar.int 0)))) rfl).2.1 []
    (Or.inl rfl)).2.1⟩

/-- C2. An optional rule whose source holds no value for its key: `bindPath`,
`bindMapStrings`, `bindQuery`, `bindHeader` and the form codec of `bindOrRequireBody`
return `(false, nil)`, `bindCookie` returns nil, and the target instance is returned as
it was. -/
theorem C2_optional_missing (env : Env) (p : paramInfo) (info : tagInfo) (expr : TagExpr)
    (hopt : info.required = false) :
    (∀ pathParams : PathParams, (pathParams.Get info.paramName).2 = false →
      p.bindPath env info expr pathParams = Except.ok (expr, false, none)) ∧
    (∀ values : MapStrings,
      (mapIndex info.paramName values = none ∨ mapIndex info.paramName values = some []) →
      p.bindMapStrings env info expr values = Except.ok (expr, false, none) ∧
      p.bindQuery env info expr values = Except.ok (expr, false, none) ∧
      p.bindHeader env info expr values = Except.ok (expr, false, none) ∧
      ∀ (bodyString : GoString) (checkOpt : Bool),
        p.bindOrRequireBody env info expr codec.bodyForm bodyString values checkOpt =
          Except.ok (expr, false, none)) ∧
    (∀ cookies : List Cookie, (∀ c ∈ cookies, c.Name ≠ info.paramName) →
      p.bindCookie env info expr cookies = Except.ok (expr, none)) := by
  have hmap : ∀ values : MapStrings,
      (mapIndex info.paramName values = none ∨ mapIndex info.paramName values = some []) →
      p.bindMapStrings env info expr values = Except.ok (expr, false, none) := by
    intro values h
    rcases h with h | h <;> simp [paramInfo.bindMapStrings, h, hopt]
  refine ⟨?_, ?_, ?_⟩
  · intro pathParams h
    unfold paramInfo.bindPath
    cases hg : pathParams.Get info.paramName with
    | mk r found =>
      rw [hg] at h
      simp only at h
      simp [h, hopt]
  · intro values h
    refine ⟨hmap values h, hmap values h, hmap values h, ?_⟩
    intro bodyString checkOpt
    exact hmap values h
  · intro cookies h
    simp [paramInfo.bindCookie, cookieValues_none _ _ h, hopt]

/-- C2, witness: the optional cookie rule `session` with one cookie of another name
returns nil and leaves the target as it was. -/
theorem C2_optional_missing_witness :
    (exampleRule In.cookie "session" false).required = false ∧
    (exampleParam (exampleRule In.cookie "session" false)).bindCookie exampleEnv
      (exampleRule In.cookie "session" false)
      (exampleTarget (exampleField Kind.String Kind.Invalid (Data.one (Scalar.str []))))
      [⟨str "lang", str "en"⟩] =
      Except.ok (exampleTarget (exampleField Kind.String Kind.Invalid (Data.one (Scalar.str []))),
        none) :=
  ⟨rfl, (C2_optional_missing exampleEnv (exampleParam (exampleRule In.cookie "session" false))
    (exampleRule In.cookie "session" false)
    (exampleTarget (exampleField Kind.String Kind.Invalid (Data.one (Scalar.str [])))) rfl).2.2
    [⟨str "lang", str "en"⟩] (by decide)⟩


/-- C3. An integer field (signed or unsigned, of 8, 16, 32 or 64 bits, or `int` / `uint`
of the platform's width) and a non-empty token sequence whose first token is the base-10
representation of an integer `n` between the least and the greatest value of the kind,
both included: `setStringSlice` returns nil and the field holds `n`; `bindQuery` on a map
that holds these tokens under the rule's key returns `(true, nil)` and the target's field
holds `n`. -/
theorem C3_integer_in_range (env : Env) (hplat : env.IntSize = 32 ∨ env.IntSize = 64)
    (info : tagInfo) (k ek : Kind) (df edf : Bool) (v : RValue) (d0 : Data) (n : Int) (rest : List GoString)
    (hk : k ∈ signedKinds ∨ k ∈ unsignedKinds)
    (hv : DereferenceValue v = RValue.loc ⟨k, ek, df, edf⟩ d0)
    (hn : kindMin env k ≤ n ∧ n ≤ kindMax env k) :
    setStringSlice env info v (FormatInt n :: rest) =
        Except.ok (v.assign (Data.one (intScalar k n)), none) ∧
      DereferenceValue (v.assign (Data.one (intScalar k n))) =
        RValue.loc ⟨k, ek, df, edf⟩ (Data.one (intScalar k n)) ∧
      ∀ (p : paramInfo) (expr : TagExpr) (values : MapStrings) (present : Bool),
        mapIndex info.paramName values = some (FormatInt n :: rest) →
        mapIndex p.fieldSelector expr.fields = some ⟨present, v⟩ →
        p.bindQuery env info expr values =
            Except.ok ((expr.init p.fieldSelector).write p.fieldSelector
              (v.assign (Data.one (intScalar k n))), true, none) ∧
          ((expr.init p.fieldSelector).write p.fieldSelector
              (v.assign (Data.one (intScalar k n)))).fieldValue p.fieldSelector =
            some (v.assign (Data.one (intScalar k n))) := by
  have hset := setStringSlice_int_in_range env hplat info k ek df edf v d0 n rest hk hv hn
  refine ⟨hset, DereferenceValue_assign v _ d0 _ hv, ?_⟩
  intro p expr values present hvals hf
  refine ⟨?_, fieldValue_init_write expr _ _ _ hf⟩
  have hvalid := IsValid_of_DereferenceValue v _ d0 hv
  simp [paramInfo.bindQuery, paramInfo.bindMapStrings, hvals,
    bindStringSlice_found env p info expr _ present v hf hvalid, hset]

/-- C3, witness: the required query parameter `id`, a 64-bit integer field and the query
map `{"id": ["42"]}` give `bound = true`, a nil error and the field 42. -/
theorem C3_integer_in_range_witness :
    (exampleParam (exampleRule In.query "id" true)).bindQuery exampleEnv
      (exampleRule In.query "id" true)
      (exampleTarget (exampleField Kind.Int64 Kind.Invalid (Data.one (Scalar.int 0))))
      [(str "id", [str "42"])] =
      Except.ok (exampleBound (exampleField Kind.Int64 Kind.Invalid (Data.one (Scalar.int 42))),
        true, none) := by
  have h := ((C3_integer_in_range exampleEnv (Or.inr rfl) (exampleRule In.query "id" true)
    Kind.Int64 Kind.Invalid false false
    (exampleField Kind.Int64 Kind.Invalid (Data.one (Scalar.int 0)))
    (Data.one (Scalar.int 0)) 42 [] (Or.inl (by decide)) rfl (by decide)).2.2
    (exampleParam (exampleRule In.query "id" true))
    (exampleTarget (exampleField Kind.Int64 Kind.Invalid (Data.one (Scalar.int 0))))
    [(str "id", [FormatInt 42])] false rfl rfl).1
  have hF : FormatInt 42 = str "42" := by
    simp [FormatInt, FormatUint]
    decide
  rw [hF] at h
  exact h

/-- C4, counterexample: an 8-bit integer field and the token `128`, one past the
greatest value: `setStringSlice` returns the rule's `typeError`, not nil. -/
theorem C4_counterexample :
    setStringSlice exampleEnv (exampleRule In.query "id" false)
        (exampleField Kind.Int8 Kind.Invalid (Data.one (Scalar.int 0))) [str "128"] =
      Except.ok (exampleField Kind.Int8 Kind.Invalid (Data.one (Scalar.int 0)),
        some (exampleRule In.query "id" false).typeError) ∧
    ¬ (setStringSlice exampleEnv (exampleRule In.query "id" false)
        (exampleField Kind.Int8 Kind.Invalid (Data.one (Scalar.int 0))) [str "128"] =
      Except.ok (exampleField Kind.Int8 Kind.Invalid (Data.one (Scalar.int 0)), none)) := by
  decide

/-- C4, as amended. An integer field and a non-empty token sequence whose first token
is malformed (for a signed kind: not an optional sign followed by decimal digits; for an
unsigned kind: not a string of decimal digits) or denotes a number outside the range of
the bit size it is parsed with (8, 16, 32 or 64; 64 for `int` and `uint`):
`setStringSlice` leaves the field as it was and returns the rule's `typeError`. -/
theorem C4_integer_parse_failure (env : Env) (info : tagInfo) (k ek : Kind) (df edf : Bool) (v : RValue)
    (d0 : Data) (a0 : GoString) (rest : List GoString)
    (hv : DereferenceValue v = RValue.loc ⟨k, ek, df, edf⟩ d0)
    (hbad : (k ∈ signedKinds ∧ ∀ n : Int, signedValue a0 = some n →
        n < -(2 ^ (parseBitSize k - 1) : Int) ∨ (2 ^ (parseBitSize k - 1) : Int) ≤ n) ∨
      (k ∈ unsignedKinds ∧ ∀ n : Nat, digitsValue a0 = some n → 2 ^ parseBitSize k ≤ n)) :
    setStringSlice env info v (a0 :: rest) = Except.ok (v, some info.typeError) :=
  setStringSlice_int_parse_failure env info k ek df edf v d0 a0 rest hv hbad

/-- C4 as amended, witness: an unsigned 8-bit field and the malformed token `+5` (a
sign is not accepted for an unsigned kind). -/
theorem C4_integer_parse_failure_witness :
    setStringSlice exampleEnv (exampleRule In.query "id" false)
        (exampleField Kind.Uint8 Kind.Invalid (Data.one (Scalar.uint 7))) [str "+5", str "6"] =
      Except.ok (exampleField Kind.Uint8 Kind.Invalid (Data.one (Scalar.uint 7)),
        some (exampleRule In.query "id" false).typeError) :=
  C4_integer_parse_failure exampleEnv (exampleRule In.query "id" false) Kind.Uint8 Kind.Invalid
    false false
    (exampleField Kind.Uint8 Kind.Invalid (Data.one (Scalar.uint 7))) (Data.one (Scalar.uint 7))
    (str "+5") [str "6"] rfl
    (Or.inr ⟨by decide, fun n hn => by
      rw [show digitsValue (str "+5") = none from by decide] at hn
      cases hn⟩)

/-- C5. A boolean field and a non-empty token sequence: when the first token is a
literal that `strconv.ParseBool` accepts, the field is set to its value and nil is
returned; when it is not, the field is left as it was and nil is returned all the same.
So `bindHeader` and `bindQuery` on a map that holds an unparsable token under the rule's
key return `(true, nil)` and the target's field is as before. -/
theorem C5_bool_lenient (env : Env) (info : tagInfo) (ek : Kind) (df edf : Bool) (v : RValue) (d0 : Data)
    (a0 : GoString) (rest : List GoString)
    (hv : DereferenceValue v = RValue.loc ⟨Kind.Bool, ek, df, edf⟩ d0) :
    (∀ b : Bool, ParseBool a0 = some b →
      setStringSlice env info v (a0 :: rest) =
          Except.ok (v.assign (Data.one (Scalar.bool b)), none) ∧
        DereferenceValue (v.assign (Data.one (Scalar.bool b))) =
          RValue.loc ⟨Kind.Bool, ek, df, edf⟩ (Data.one (Scalar.bool b))) ∧
    (ParseBool a0 = none →
      setStringSlice env info v (a0 :: rest) = Except.ok (v, none) ∧
      ∀ (p : paramInfo) (expr : TagExpr) (values : MapStrings) (present : Bool),
        mapIndex info.paramName values = some (a0 :: rest) →
        mapIndex p.fieldSelector expr.fields = some ⟨present, v⟩ →
        p.bindHeader env info expr values =
            Except.ok ((expr.init p.fieldSelector).write p.fieldSelector v, true, none) ∧
          p.bindQuery env info expr values =
            Except.ok ((expr.init p.fieldSelector).write p.fieldSelector v, true, none) ∧
          ((expr.init p.fieldSelector).write p.fieldSelector v).fieldValue p.fieldSelector =
            some v) := by
  have hkind := kind_of_loc v _ ek _ _ d0 hv
  refine ⟨?_, ?_⟩
  · intro b hb
    refine ⟨?_, DereferenceValue_assign v _ d0 _ hv⟩
    simp [setStringSlice, hkind, index0, hb, RValue.SetBool]
  · intro hb
    have hset : setStringSlice env info v (a0 :: rest) = Except.ok (v, none) := by
      simp [setStringSlice, hkind, index0, hb]
    refine ⟨hset, ?_⟩
    intro p expr values present hvals hf
    have hvalid := IsValid_of_DereferenceValue v _ d0 hv
    have hmap : p.bindMapStrings env info expr values =
        Except.ok ((expr.init p.fieldSelector).write p.fieldSelector v, true, none) := by
      simp [paramInfo.bindMapStrings, hvals,
        bindStringSlice_found env p info expr _ present v hf hvalid, hset]
    exact ⟨hmap, hmap, fieldValue_init_write expr _ _ _ hf⟩

/-- C5, witness: the optional header `X-Flag`, a boolean field holding `false` and the
header map `{"X-Flag": ["not-a-bool"]}` give `bound = true`, a nil error, and the field
still holds `false`. -/
theorem C5_bool_lenient_witness :
    ParseBool (str "not-a-bool") = none ∧
    (exampleParam (exampleRule In.header "X-Flag" false)).bindHeader exampleEnv
      (exampleRule In.header "X-Flag" false)
      (exampleTarget (exampleField Kind.Bool Kind.Invalid (Data.one (Scalar.bool false))))
      [(str "X-Flag", [str "not-a-bool"])] =
      Except.ok (exampleBound (exampleField Kind.Bool Kind.Invalid (Data.one (Scalar.bool false))),
        true, none) :=
  ⟨by decide,
    (((C5_bool_lenient exampleEnv (exampleRule In.header "X-Flag" false) Kind.Invalid
      false false
      (exampleField Kind.Bool Kind.Invalid (Data.one (Scalar.bool false)))
      (Data.one (Scalar.bool false)) (str "not-a-bool") [] rfl).2 (by decide)).2
      (exampleParam (exampleRule In.header "X-Flag" false))
      (exampleTarget (exampleField Kind.Bool Kind.Invalid (Data.one (Scalar.bool false))))
      [(str "X-Flag", [str "not-a-bool"])] false rfl rfl).1⟩

/-! ## Lemmas on `reflect.Value.Set` and on the outcomes of `setStringSlice` -/

theorem Set_ok (v : RValue) (t : RType) (d0 : Data) (x : Value)
    (hv : DereferenceValue v = RValue.loc t d0) (ha : t.assignableFrom x = true) :
    v.Set x = Except.ok (v.assign x.data) := by
  simp [RValue.Set, hv, ha]

theorem Set_panic (v : RValue) (t : RType) (d0 : Data) (x : Value)
    (hv : DereferenceValue v = RValue.loc t d0) (ha : t.assignableFrom x = false) :
    v.Set x = Except.error Panic.notAssignable := by
  simp [RValue.Set, hv, ha]

theorem Set_cases (v : RValue) (x : Value) :
    v.Set x = Except.ok (v.assign x.data) ∨ v.Set x = Except.error Panic.notAssignable := by
  unfold RValue.Set
  split
  · split
    · exact Or.inl rfl
    · exact Or.inr rfl
  · exact Or.inr rfl

theorem setStringSlice_string_ok (env : Env) (info : tagInfo) (ek : Kind) (edf : Bool)
    (v : RValue) (d0 : Data) (a0 : GoString) (rest : List GoString)
    (hv : DereferenceValue v = RValue.loc ⟨Kind.String, ek, false, edf⟩ d0) :
    setStringSlice env info v (a0 :: rest) =
      Except.ok (v.assign (Data.one (Scalar.str a0)), none) := by
  have hkind := kind_of_loc v _ _ _ _ d0 hv
  have hset := Set_ok v _ d0 (Value.ofString a0) hv (by simp [RType.assignableFrom])
  simp [setStringSlice, hkind, index0, hset, Value.data]

theorem setStringSlice_string_panic (env : Env) (info : tagInfo) (ek : Kind) (edf : Bool)
    (v : RValue) (d0 : Data) (a0 : GoString) (rest : List GoString)
    (hv : DereferenceValue v = RValue.loc ⟨Kind.String, ek, true, edf⟩ d0) :
    setStringSlice env info v (a0 :: rest) = Except.error Panic.notAssignable := by
  have hkind := kind_of_loc v _ _ _ _ d0 hv
  have hset := Set_panic v _ d0 (Value.ofString a0) hv (by simp [RType.assignableFrom])
  simp [setStringSlice, hkind, index0, hset]

theorem setStringSlice_slice_ok (env : Env) (info : tagInfo) (ek : Kind) (df : Bool) (v : RValue)
    (d0 : Data) (a : List GoString) (xs : List Scalar)
    (hv : DereferenceValue v = RValue.loc ⟨Kind.Slice, ek, df, false⟩ d0)
    (hbasic : basicKind ek = true)
    (hxs : env.stringsToValue ek a = Except.ok xs) :
    setStringSlice env info v a = Except.ok (v.assign (Data.many xs), none) := by
  have hkind := kind_of_loc v _ _ _ _ d0 hv
  have hek : (DereferenceValue v).elemKind = ek := by rw [hv]; rfl
  have hset := Set_ok v _ d0 (Value.ofSlice ek xs) hv (by simp [RType.assignableFrom, hbasic])
  simp [setStringSlice, hkind, hek, hxs, hset, Value.data]

theorem setStringSlice_slice_panic (env : Env) (info : tagInfo) (ek : Kind) (df : Bool)
    (v : RValue) (d0 : Data) (a : List GoString) (xs : List Scalar)
    (hv : DereferenceValue v = RValue.loc ⟨Kind.Slice, ek, df, true⟩ d0)
    (hxs : env.stringsToValue ek a = Except.ok xs) :
    setStringSlice env info v a = Except.error Panic.notAssignable := by
  have hkind := kind_of_loc v _ _ _ _ d0 hv
  have hek : (DereferenceValue v).elemKind = ek := by rw [hv]; rfl
  have hset := Set_panic v _ d0 (Value.ofSlice ek xs) hv (by simp [RType.assignableFrom])
  simp [setStringSlice, hkind, hek, hxs, hset]

theorem setStringSlice_slice_error (env : Env) (info : tagInfo) (v : RValue)
    (a : List GoString) (e : GoString) (hkind : (DereferenceValue v).kind = Kind.Slice)
    (he : env.stringsToValue (DereferenceValue v).elemKind a = Except.error e) :
    setStringSlice env info v a = Except.ok (v, some info.typeError) := by
  simp [setStringSlice, hkind, he]

/-- C7, at the failing input: a field of type `[]MyString` (with `type MyString string`)
holding no element and the token `a`. The element conversion on the kind `String`
succeeds, and `setStringSlice` panics in `reflect.Value.Set` (the `[]string` built is not
assignable to `[]MyString`) where the field should hold the new sequence and nil be
returned; on a field of type `[]string` the same call does set the field to `["a"]` and
returns nil. -/
theorem C7_slice_defined_element_panics :
    exampleEnv.stringsToValue Kind.String [str "a"] = Except.ok [Scalar.str (str "a")] ∧
    setStringSlice exampleEnv (exampleRule In.query "tags" false)
        (definedElemSliceField Kind.String (Data.many [])) [str "a"] =
      Except.error Panic.notAssignable ∧
    setStringSlice exampleEnv (exampleRule In.query "tags" false)
        (exampleField Kind.Slice Kind.String (Data.many [])) [str "a"] =
      Except.ok (exampleField Kind.Slice Kind.String (Data.many [Scalar.str (str "a")]),
        none) := by
  decide

/-- C8. A field whose kind, after following the pointers, has no case in the switch of
`setStringSlice` (not string, bool, float32, float64, a signed or unsigned integer of 8,
16, 32, 64 bits or of the platform's width, or slice): for every token sequence, the
empty one included, `setStringSlice` returns the rule's `typeError` and the field is as
before. -/
theorem C8_unsupported_kind (env : Env) (info : tagInfo) (v : RValue) (a : List GoString)
    (hk : (DereferenceValue v).kind ∉ supportedKinds) :
    setStringSlice env info v a = Except.ok (v, some info.typeError) := by
  unfold setStringSlice
  cases hkind : (DereferenceValue v).kind <;>
    first
    | rfl
    | (rw [hkind] at hk; exact absurd hk (by decide))

/-- C8, witness: a struct field and an empty token sequence. -/
theorem C8_unsupported_kind_witness :
    setStringSlice exampleEnv (exampleRule In.query "id" false)
        (RValue.ptr (exampleField Kind.Struct Kind.Invalid Data.other)) [] =
      Except.ok (RValue.ptr (exampleField Kind.Struct Kind.Invalid Data.other),
        some (exampleRule In.query "id" false).typeError) :=
  C8_unsupported_kind exampleEnv (exampleRule In.query "id" false)
    (RValue.ptr (exampleField Kind.Struct Kind.Invalid Data.other)) [] (by decide)

/-- C9, at the failing input: a field of the defined type `MyString` (with
`type MyString string`) holding `old` and the token `x`: `setStringSlice` panics in
`reflect.Value.Set` (a `string` is not assignable to `MyString`) where the field should
hold `x` and nil be returned; on a field of type `string` the same call does set the
field to `x` and returns nil. -/
theorem C9_defined_string_panics :
    setStringSlice exampleEnv (exampleRule In.query "q" false)
        (definedStringField (Data.one (Scalar.str (str "old")))) [str "x"] =
      Except.error Panic.notAssignable ∧
    setStringSlice exampleEnv (exampleRule In.query "q" false)
        (exampleField Kind.String Kind.Invalid (Data.one (Scalar.str (str "old"))))
        [str "x"] =
      Except.ok (exampleField Kind.String Kind.Invalid (Data.one (Scalar.str (str "x"))),
        none) := by
  decide

/-! ## Lemmas on `bindRawBody` -/

theorem bindRawBody_empty (p : paramInfo) (info : tagInfo) (expr : TagExpr) :
    p.bindRawBody info expr [] =
      Except.ok (expr, if info.required then some info.requiredError else none) := by
  cases hr : info.required <;> simp [paramInfo.bindRawBody, hr]

theorem bindRawBody_bytes (p : paramInfo) (info : tagInfo) (expr : TagExpr)
    (bodyBytes : List Nat) (present : Bool) (v : RValue) (df : Bool) (d0 : Data)
    (hne : bodyBytes ≠ [])
    (hf : mapIndex p.fieldSelector expr.fields = some ⟨present, v⟩) (hvalid : v.IsValid = true)
    (hv : DereferenceValue v = RValue.loc ⟨Kind.Slice, Kind.Uint8, df, false⟩ d0) :
    p.bindRawBody info expr bodyBytes =
      Except.ok ((expr.init p.fieldSelector).write p.fieldSelector
        (v.assign (Data.many (bodyBytes.map Scalar.uint))), none) := by
  have hlen : ¬ bodyBytes.length = 0 := fun h => hne (List.length_eq_zero.mp h)
  have hget := getField_init p expr present v hf hvalid
  have hkind := kind_of_loc v _ _ _ _ d0 hv
  have hek : (DereferenceValue v).elemKind = Kind.Uint8 := by rw [hv]; rfl
  have hset := Set_ok v _ d0 (Value.ofSlice Kind.Uint8 (bodyBytes.map Scalar.uint)) hv
    (by simp [RType.assignableFrom, basicKind])
  simp [paramInfo.bindRawBody, hlen, hget, hvalid, hkind, hek, hset, Value.data]

theorem bindRawBody_string (p : paramInfo) (info : tagInfo) (expr : TagExpr)
    (bodyBytes : List Nat) (present : Bool) (v : RValue) (ek : Kind) (edf : Bool) (d0 : Data)
    (hne : bodyBytes ≠ [])
    (hf : mapIndex p.fieldSelector expr.fields = some ⟨present, v⟩) (hvalid : v.IsValid = true)
    (hv : DereferenceValue v = RValue.loc ⟨Kind.String, ek, false, edf⟩ d0) :
    p.bindRawBody info expr bodyBytes =
      Except.ok ((expr.init p.fieldSelector).write p.fieldSelector
        (v.assign (Data.one (Scalar.str bodyBytes))), none) := by
  have hlen : ¬ bodyBytes.length = 0 := fun h => hne (List.length_eq_zero.mp h)
  have hget := getField_init p expr present v hf hvalid
  have hkind := kind_of_loc v _ _ _ _ d0 hv
  have hset := Set_ok v _ d0 (Value.ofString bodyBytes) hv (by simp [RType.assignableFrom])
  simp [paramInfo.bindRawBody, hlen, hget, hvalid, hkind, hset, Value.data]

theorem bindRawBody_other (p : paramInfo) (info : tagInfo) (expr : TagExpr)
    (bodyBytes : List Nat) (present : Bool) (v : RValue) (hne : bodyBytes ≠ [])
    (hf : mapIndex p.fieldSelector expr.fields = some ⟨present, v⟩) (hvalid : v.IsValid = true)
    (hns : (DereferenceValue v).kind ≠ Kind.String)
    (hsl : (DereferenceValue v).kind = Kind.Slice → (DereferenceValue v).elemKind ≠ Kind.Uint8) :
    p.bindRawBody info expr bodyBytes =
      Except.ok (expr.init p.fieldSelector, some info.typeError) := by
  have hlen : ¬ bodyBytes.length = 0 := fun h => hne (List.length_eq_zero.mp h)
  have hget := getField_init p expr present v hf hvalid
  unfold paramInfo.bindRawBody
  rw [if_neg hlen, hget]
  simp only [hvalid]
  cases hkind : (DereferenceValue v).kind <;> simp_all

/-- C10, at the failing inputs: the body `hello` and a field of the defined type
`MyString` (with `type MyString string`), or a field of type `[]MyByte` (with
`type MyByte uint8`): `bindRawBody` panics in `reflect.Value.Set` where the field should
hold the body and nil be returned; on a field of type `string` the same call does set
the field to `hello` and returns nil. -/
theorem C10_bindRawBody_defined_type_panics :
    (exampleParam (exampleRule In.raw_body "body" true)).bindRawBody
        (exampleRule In.raw_body "body" true)
        (exampleTarget (definedStringField (Data.one (Scalar.str [])))) (str "hello") =
      Except.error Panic.notAssignable ∧
    (exampleParam (exampleRule In.raw_body "body" true)).bindRawBody
        (exampleRule In.raw_body "body" true)
        (exampleTarget (definedElemSliceField Kind.Uint8 (Data.many []))) (str "hello") =
      Except.error Panic.notAssignable ∧
    (exampleParam (exampleRule In.raw_body "body" true)).bindRawBody
        (exampleRule In.raw_body "body" true)
        (exampleTarget (exampleField Kind.String Kind.Invalid (Data.one (Scalar.str []))))
        (str "hello") =
      Except.ok (exampleBound
        (exampleField Kind.String Kind.Invalid (Data.one (Scalar.str (str "hello")))),
        none) := by
  decide

/-! ## Lemmas on `getField` -/

theorem getField_noinit (p : paramInfo) (expr : TagExpr) : (p.getField expr false).1 = expr := by
  unfold paramInfo.getField
  cases expr.Field p.fieldSelector with
  | none => rfl
  | some fh =>
    simp only [FieldHandler.Value, Bool.false_eq_true, if_false]
    split <;> split <;> rfl

theorem getField_error (p : paramInfo) (expr : TagExpr) (initZero : Bool) :
    (p.getField expr initZero).2.2 = none := by
  unfold paramInfo.getField
  cases expr.Field p.fieldSelector with
  | none => rfl
  | some fh =>
    simp only
    split <;> rfl

theorem bindCookie_eq (env : Env) (p : paramInfo) (info : tagInfo) (expr : TagExpr)
    (cookies : List Cookie)
    (hne : ((cookies.filter (fun c => c.Name = info.paramName)).map (fun c => c.Value)) ≠ []) :
    p.bindCookie env info expr cookies =
      p.bindStringSlice env info expr
        ((cookies.filter (fun c => c.Name = info.paramName)).map (fun c => c.Value)) := by
  have hlen : ¬ ((cookies.filter (fun c => c.Name = info.paramName)).map
      (fun c => c.Value)).length = 0 := fun h => hne (List.length_eq_zero.mp h)
  unfold paramInfo.bindCookie
  simp only [cookieValues_eq]
  rw [if_neg hlen]

/-- C11, at the failing input: the cookie rule `session`, the cookies `session=a`,
`other=z`, `session=b` and a field of type `[]MyString` (with `type MyString string`).
The values handed to the coercion are `a`, `b`, and `bindCookie` panics in
`reflect.Value.Set` where the field should hold `["a","b"]`; on a field of type
`[]string` the same call does set the field to `["a","b"]` and returns nil. -/
theorem C11_cookie_defined_element_panics :
    cookieValues (str "session")
        [⟨str "session", str "a"⟩, ⟨str "other", str "z"⟩, ⟨str "session", str "b"⟩] =
      [str "a", str "b"] ∧
    (exampleParam (exampleRule In.cookie "session" false)).bindCookie exampleEnv
        (exampleRule In.cookie "session" false)
        (exampleTarget (definedElemSliceField Kind.String (Data.many [])))
        [⟨str "session", str "a"⟩, ⟨str "other", str "z"⟩, ⟨str "session", str "b"⟩] =
      Except.error Panic.notAssignable ∧
    (exampleParam (exampleRule In.cookie "session" false)).bindCookie exampleEnv
        (exampleRule In.cookie "session" false)
        (exampleTarget (exampleField Kind.Slice Kind.String (Data.many [])))
        [⟨str "session", str "a"⟩, ⟨str "other", str "z"⟩, ⟨str "session", str "b"⟩] =
      Except.ok (exampleBound (exampleField Kind.Slice Kind.String
        (Data.many [Scalar.str (str "a"), Scalar.str (str "b")])), none) := by
  decide

/-- C12. A codec other than form, JSON and protobuf: for every rule, body string, form
map and `checkOpt`, `bindOrRequireBody` returns `(false, contentTypeError)` and the
target instance is returned as it was (the field handle is not resolved). -/
theorem C12_unknown_codec (env : Env) (p : paramInfo) (info : tagInfo) (expr : TagExpr)
    (bodyCodec : codec) (bodyString : GoString) (postForm : MapStrings) (checkOpt : Bool)
    (hform : bodyCodec ≠ codec.bodyForm) (hjson : bodyCodec ≠ codec.bodyJSON)
    (hpb : bodyCodec ≠ codec.bodyProtobuf) :
    p.bindOrRequireBody env info expr bodyCodec bodyString postForm checkOpt =
      Except.ok (expr, false, some info.contentTypeError) := by
  cases bodyCodec with
  | bodyForm => exact absurd rfl hform
  | bodyJSON => exact absurd rfl hjson
  | bodyProtobuf => exact absurd rfl hpb
  | unknown tag => rfl

/-- C12, witness: a required form rule, a codec tag that is none of the three, and a
form map that holds the key: `(false, contentTypeError)`, target untouched. -/
theorem C12_unknown_codec_witness :
    (exampleParam (exampleRule In.form "id" true)).bindOrRequireBody exampleEnv
      (exampleRule In.form "id" true)
      (exampleTarget (exampleField Kind.Int64 Kind.Invalid (Data.one (Scalar.int 0))))
      (codec.unknown 0) (str "id=42") [(str "id", [str "42"])] true =
      Except.ok (exampleTarget (exampleField Kind.Int64 Kind.Invalid (Data.one (Scalar.int 0))),
        false, some (exampleRule In.form "id" true).contentTypeError) :=
  C12_unknown_codec exampleEnv (exampleParam (exampleRule In.form "id" true))
    (exampleRule In.form "id" true)
    (exampleTarget (exampleField Kind.Int64 Kind.Invalid (Data.one (Scalar.int 0))))
    (codec.unknown 0) (str "id=42") [(str "id", [str "42"])] true
    (by decide) (by decide) (by decide)

/-- C13. With the JSON codec, `bindOrRequireBody` returns `(false, requiredError)`
exactly when the check runs (`checkOpt` is true or the rule is required) and fails (the
rule's dotted path does not resolve in the body text, or the field handle resolved
without initialising is not valid); in every other case it returns `(true, nil)`. So an
optional rule with `checkOpt = false` is bound for every body, the empty one included.
The target instance is returned as it was. -/
theorem C13_json_required (env : Env) (p : paramInfo) (info : tagInfo) (expr : TagExpr)
    (bodyString : GoString) (postForm : MapStrings) (checkOpt : Bool) :
    (p.bindOrRequireBody env info expr codec.bodyJSON bodyString postForm checkOpt =
        Except.ok (expr, false, some info.requiredError) ↔
      (checkOpt = true ∨ info.required = true) ∧
        (env.gjsonExists bodyString info.namePath = false ∨
          (p.getField expr false).2.1.IsValid = false)) ∧
    (¬ ((checkOpt = true ∨ info.required = true) ∧
        (env.gjsonExists bodyString info.namePath = false ∨
          (p.getField expr false).2.1.IsValid = false)) →
      p.bindOrRequireBody env info expr codec.bodyJSON bodyString postForm checkOpt =
        Except.ok (expr, true, none)) ∧
    (info.required = false →
      ∀ body : GoString,
        p.bindOrRequireBody env info expr codec.bodyJSON body postForm false =
          Except.ok (expr, true, none)) := by
  have hexpr := getField_noinit p expr
  have key : p.bindOrRequireBody env info expr codec.bodyJSON bodyString postForm checkOpt =
      if (checkOpt = true ∨ info.required = true) ∧
        (env.gjsonExists bodyString info.namePath = false ∨
          (p.getField expr false).2.1.IsValid = false)
      then Except.ok (expr, false, some info.requiredError)
      else Except.ok (expr, true, none) := by
    unfold paramInfo.bindOrRequireBody paramInfo.checkRequireJSON
    by_cases hc : checkOpt = true ∨ info.required = true
    · by_cases hg : env.gjsonExists bodyString info.namePath = false
      · simp [hc, hg]
      · rcases hgf : p.getField expr false with ⟨e1, v, err⟩
        have herr : err = none := by
          have := getField_error p expr false
          rw [hgf] at this
          exact this
        have he1 : e1 = expr := by
          rw [hgf] at hexpr
          exact hexpr
        subst herr
        subst he1
        by_cases hv : v.IsValid = false
        · simp [hc, hg, hv]
        · simp [hc, hg, hv]
    · simp [hc]
  refine ⟨?_, ?_, ?_⟩
  · rw [key]
    constructor
    · intro h
      by_contra hn
      rw [if_neg hn] at h
      simp at h
    · intro h
      rw [if_pos h]
  · intro hn
    rw [key, if_neg hn]
  · intro hreq body
    simp [paramInfo.bindOrRequireBody, paramInfo.checkRequireJSON, hreq]

/-- C13, witness: the JSON rule with the path `user.age`, required, and the body
`{"user":{}}`, in which the path does not resolve: the rule's `requiredError`. -/
theorem C13_json_required_witness :
    jsonEnv.gjsonExists (str "\x7b\"user\":\x7b\x7d\x7d")
        (exampleRule In.json "user.age" true).namePath = false ∧
    (exampleParam (exampleRule In.json "user.age" true)).bindOrRequireBody jsonEnv
      (exampleRule In.json "user.age" true)
      (exampleBound (exampleField Kind.Int64 Kind.Invalid (Data.one (Scalar.int 0))))
      codec.bodyJSON (str "\x7b\"user\":\x7b\x7d\x7d") [] false =
      Except.ok (exampleBound (exampleField Kind.Int64 Kind.Invalid (Data.one (Scalar.int 0))),
        false, some (exampleRule In.json "user.age" true).requiredError) :=
  ⟨by decide,
    (C13_json_required jsonEnv (exampleParam (exampleRule In.json "user.age" true))
      (exampleRule In.json "user.age" true)
      (exampleBound (exampleField Kind.Int64 Kind.Invalid (Data.one (Scalar.int 0))))
      (str "\x7b\"user\":\x7b\x7d\x7d") [] false).1.mpr ⟨Or.inr rfl, Or.inl (by decide)⟩⟩

/-- C14. With the protobuf codec, `bindOrRequireBody` returns `(false, requiredError)`
exactly when `checkOpt` is true, the rule is not required, and the field handle resolved
without initialising is not valid; in every other case, in particular for every required
rule, it returns `(true, nil)`. The target instance is returned as it was. -/
theorem C14_protobuf_required (env : Env) (p : paramInfo) (info : tagInfo) (expr : TagExpr)
    (bodyString : GoString) (postForm : MapStrings) (checkOpt : Bool) :
    (p.bindOrRequireBody env info expr codec.bodyProtobuf bodyString postForm checkOpt =
        Except.ok (expr, false, some info.requiredError) ↔
      checkOpt = true ∧ info.required = false ∧ (p.getField expr false).2.1.IsValid = false) ∧
    (¬ (checkOpt = true ∧ info.required = false ∧ (p.getField expr false).2.1.IsValid = false) →
      p.bindOrRequireBody env info expr codec.bodyProtobuf bodyString postForm checkOpt =
        Except.ok (expr, true, none)) ∧
    (info.required = true →
      p.bindOrRequireBody env info expr codec.bodyProtobuf bodyString postForm checkOpt =
        Except.ok (expr, true, none)) := by
  have hexpr := getField_noinit p expr
  have key : p.bindOrRequireBody env info expr codec.bodyProtobuf bodyString postForm checkOpt =
      if checkOpt = true ∧ info.required = false ∧ (p.getField expr false).2.1.IsValid = false
      then Except.ok (expr, false, some info.requiredError)
      else Except.ok (expr, true, none) := by
    unfold paramInfo.bindOrRequireBody paramInfo.checkRequireProtobuf
    by_cases hc : checkOpt = true ∧ info.required = false
    · rcases hgf : p.getField expr false with ⟨e1, v, err⟩
      have herr : err = none := by
        have := getField_error p expr false
        rw [hgf] at this
        exact this
      have he1 : e1 = expr := by
        rw [hgf] at hexpr
        exact hexpr
      subst herr
      subst he1
      by_cases hv : v.IsValid = false
      · simp [hc, hv]
      · simp [hc, hv]
    · have hn : ¬ (checkOpt = true ∧ info.required = false ∧
          (p.getField expr false).2.1.IsValid = false) := fun h => hc ⟨h.1, h.2.1⟩
      rw [if_neg hc, if_neg hn]
      simp
  refine ⟨?_, ?_, ?_⟩
  · rw [key]
    constructor
    · intro h
      by_contra hn
      rw [if_neg hn] at h
      simp at h
    · intro h
      rw [if_pos h]
  · intro hn
    rw [key, if_neg hn]
  · intro hreq
    rw [key, if_neg (by simp [hreq])]

/-- C14, witness: an optional protobuf rule, `checkOpt = true`, and a target whose path
to the field is not populated: `(false, requiredError)`; the same target with a required
rule gives `(true, nil)`. -/
theorem C14_protobuf_required_witness :
    (exampleParam (exampleRule In.protobuf "age" false)).bindOrRequireBody exampleEnv
      (exampleRule In.protobuf "age" false)
      (exampleTarget (exampleField Kind.Int64 Kind.Invalid (Data.one (Scalar.int 0))))
      codec.bodyProtobuf [] [] true =
      Except.ok (exampleTarget (exampleField Kind.Int64 Kind.Invalid (Data.one (Scalar.int 0))),
        false, some (exampleRule In.protobuf "age" false).requiredError) ∧
    (exampleParam (exampleRule In.protobuf "age" true)).bindOrRequireBody exampleEnv
      (exampleRule In.protobuf "age" true)
      (exampleTarget (exampleField Kind.Int64 Kind.Invalid (Data.one (Scalar.int 0))))
      codec.bodyProtobuf [] [] true =
      Except.ok (exampleTarget (exampleField Kind.Int64 Kind.Invalid (Data.one (Scalar.int 0))),
        true, none) :=
  ⟨(C14_protobuf_required exampleEnv (exampleParam (exampleRule In.protobuf "age" false))
      (exampleRule In.protobuf "age" false)
      (exampleTarget (exampleField Kind.Int64 Kind.Invalid (Data.one (Scalar.int 0))))
      [] [] true).1.mpr ⟨rfl, rfl, by decide⟩,
    (C14_protobuf_required exampleEnv (exampleParam (exampleRule In.protobuf "age" true))
      (exampleRule In.protobuf "age" true)
      (exampleTarget (exampleField Kind.Int64 Kind.Invalid (Data.one (Scalar.int 0))))
      [] [] true).2.2 rfl⟩

theorem nameLoop_append (pre : List tagInfo) (info : tagInfo) (rest : List tagInfo)
    (hpre : ∀ x ∈ pre, x.paramIn ≠ In.json) (hjson : info.paramIn = In.json) :
    nameLoop (pre ++ info :: rest) = info.paramName := by
  induction pre with
  | nil => simp [nameLoop, hjson]
  | cons x xs ih =>
    have hx : x.paramIn ≠ In.json := hpre x (List.mem_cons_self _ _)
    simp only [List.cons_append, nameLoop, if_neg hx]
    exact ih (fun y hy => hpre y (List.mem_cons_of_mem _ hy))

theorem nameLoop_none (l : List tagInfo) (h : ∀ x ∈ l, x.paramIn ≠ In.json) :
    nameLoop l = [] := by
  induction l with
  | nil => rfl
  | cons x xs ih =>
    have hx : x.paramIn ≠ In.json := h x (List.mem_cons_self _ _)
    simp only [nameLoop, if_neg hx]
    exact ih (fun y hy => h y (List.mem_cons_of_mem _ hy))

/-- C15, counterexample: a field `F` whose only rule is a JSON-source rule with the empty
`paramName`: the list holds a JSON-source rule, and `name` returns `F`, the struct
field's identifier, not that rule's `paramName`. -/
theorem C15_counterexample :
    exampleRule In.json "" false ∈ (exampleParam (exampleRule In.json "" false)).tagInfos ∧
    (exampleRule In.json "" false).paramIn = In.json ∧
    (exampleParam (exampleRule In.json "" false)).name In.json = str "F" ∧
    (exampleParam (exampleRule In.json "" false)).name In.json ≠
      (exampleRule In.json "" false).paramName := by
  decide

/-- C15, as amended. Method `name` returns the `paramName` of the first JSON-source rule
of the field's rule list when there is one and its `paramName` is not empty; it returns
the struct field's declared identifier when the first JSON-source rule has an empty
`paramName` and when the list holds no JSON-source rule; the result does not depend on
the `paramIn` argument. -/
theorem C15_name (p : paramInfo) (paramIn : In) :
    (∀ (pre : List tagInfo) (info : tagInfo) (rest : List tagInfo),
      p.tagInfos = pre ++ info :: rest → (∀ x ∈ pre, x.paramIn ≠ In.json) →
      info.paramIn = In.json →
      (info.paramName ≠ [] → p.name paramIn = info.paramName) ∧
        (info.paramName = [] → p.name paramIn = p.structField.Name)) ∧
    ((∀ x ∈ p.tagInfos, x.paramIn ≠ In.json) → p.name paramIn = p.structField.Name) ∧
    (∀ other : In, p.name other = p.name paramIn) := by
  refine ⟨?_, ?_, ?_⟩
  · intro pre info rest hl hpre hjson
    have hloop : nameLoop p.tagInfos = info.paramName := by
      rw [hl]
      exact nameLoop_append pre info rest hpre hjson
    refine ⟨?_, ?_⟩
    · intro hne
      simp only [paramInfo.name, hloop, if_neg hne]
    · intro he
      simp only [paramInfo.name, hloop, if_pos he]
  · intro h
    simp only [paramInfo.name, nameLoop_none _ h, if_true]
  · intro other
    rfl

/-- C15 as amended, witness: a field `F` with a query rule `id` followed by a JSON rule
`user_id`: `name` returns `user_id`, whatever the `paramIn` argument. -/
theorem C15_name_witness :
    (⟨str "F", ⟨str "F"⟩, [exampleRule In.query "id" true, exampleRule In.json "user_id" false]⟩ :
      paramInfo).name In.query = str "user_id" :=
  ((C15_name ⟨str "F", ⟨str "F"⟩,
      [exampleRule In.query "id" true, exampleRule In.json "user_id" false]⟩ In.query).1
    [exampleRule In.query "id" true] (exampleRule In.json "user_id" false) [] rfl
    (by decide) rfl).1 (by decide)

/-- C16, at the failing input: a field of type `[]MyInt` (with `type MyInt int64`)
holding no element and the tokens `1`, `-2`, each a base-10 integer in the range of the
element type. The element conversion succeeds with the integers 1 and -2, and
`setStringSlice` panics in `reflect.Value.Set` (the `[]int64` built is not assignable to
`[]MyInt`) where nil should be returned and the field hold `[1, -2]`; on a field of type
`[]int64` the same call does set the field to `[1, -2]` and returns nil. -/
theorem C16_slice_of_defined_integer_panics :
    modelEnv.stringsToValue Kind.Int64 [str "1", str "-2"] =
      Except.ok [Scalar.int 1, Scalar.int (-2)] ∧
    setStringSlice modelEnv (exampleRule In.query "ids" false)
        (definedElemSliceField Kind.Int64 (Data.many [])) [str "1", str "-2"] =
      Except.error Panic.notAssignable ∧
    setStringSlice modelEnv (exampleRule In.query "ids" false)
        (exampleField Kind.Slice Kind.Int64 (Data.many [])) [str "1", str "-2"] =
      Except.ok (exampleField Kind.Slice Kind.Int64
        (Data.many [Scalar.int 1, Scalar.int (-2)]), none) := by
  decide

/-! ## Lemmas on the errors returned -/

theorem setStringSlice_error (env : Env) (info : tagInfo) (v v1 : RValue) (a : List GoString)
    (e : GoError) (h : setStringSlice env info v a = Except.ok (v1, some e)) :
    e = info.typeError ∧ v1 = v := by
  unfold setStringSlice at h
  cases hkind : (DereferenceValue v).kind <;> rw [hkind] at h <;>
    simp only [index0, setInt, setUint, setFloat] at h <;>
    repeat' (first | (cases h; done) | (split at h))
  all_goals first
    | (cases h; done)
    | (cases h; exact ⟨rfl, rfl⟩)

theorem bindStringSlice_error (env : Env) (p : paramInfo) (info : tagInfo) (expr expr1 : TagExpr)
    (a : List GoString) (e : GoError)
    (h : p.bindStringSlice env info expr a = Except.ok (expr1, some e)) : e = info.typeError := by
  unfold paramInfo.bindStringSlice at h
  rcases hgf : p.getField expr true with ⟨e1, v, err⟩
  have herr : err = none := by
    have := getField_error p expr true
    rw [hgf] at this
    exact this
  subst herr
  rw [hgf] at h
  simp only at h
  by_cases hv : v.IsValid = false
  · simp [hv] at h
  · have hv1 : v.IsValid = true := by
      cases hb : v.IsValid
      · exact absurd hb hv
      · rfl
    cases hs : setStringSlice env info v a with
    | error x => simp [hs, hv1] at h
    | ok r =>
      obtain ⟨v1, e1'⟩ := r
      simp only [hs, hv1, ne_eq, not_true_eq_false, Bool.true_eq_false, or_self, if_false,
        Except.ok.injEq, Prod.mk.injEq] at h
      rw [h.2] at hs
      exact (setStringSlice_error env info v v1 a e hs).1

theorem bindMapStrings_error (env : Env) (p : paramInfo) (info : tagInfo) (expr expr1 : TagExpr)
    (values : MapStrings) (b : Bool) (e : GoError)
    (h : p.bindMapStrings env info expr values = Except.ok (expr1, b, some e)) :
    e = info.requiredError ∨ e = info.typeError := by
  unfold paramInfo.bindMapStrings at h
  cases hm : mapIndex info.paramName values with
  | none =>
    rw [hm] at h
    cases hr : info.required <;> simp [hr] at h
    exact Or.inl h.2.2.symm
  | some r =>
    rw [hm] at h
    simp only at h
    by_cases hlen : r.length = 0
    · rw [if_pos hlen] at h
      cases hr : info.required <;> simp [hr] at h
      exact Or.inl h.2.2.symm
    · rw [if_neg hlen] at h
      cases hb : p.bindStringSlice env info expr r with
      | error x => rw [hb] at h; cases h
      | ok res =>
        obtain ⟨e1, err⟩ := res
        rw [hb] at h
        simp only [Except.ok.injEq, Prod.mk.injEq] at h
        rw [h.2.2] at hb
        exact Or.inr (bindStringSlice_error env p info expr e1 r e hb)

theorem bindPath_error (env : Env) (p : paramInfo) (info : tagInfo) (expr expr1 : TagExpr)
    (pathParams : PathParams) (b : Bool) (e : GoError)
    (h : p.bindPath env info expr pathParams = Except.ok (expr1, b, some e)) :
    e = info.requiredError ∨ e = info.typeError := by
  unfold paramInfo.bindPath at h
  rcases hg : pathParams.Get info.paramName with ⟨r, found⟩
  rw [hg] at h
  simp only at h
  cases found with
  | false =>
    cases hr : info.required <;> simp [hr] at h
    exact Or.inl h.2.2.symm
  | true =>
    cases hb : p.bindStringSlice env info expr [r] with
    | error x => simp [hb] at h
    | ok res =>
      obtain ⟨e1, err⟩ := res
      simp only [hb, Bool.true_eq_false, if_false, Except.ok.injEq, Prod.mk.injEq] at h
      rw [h.2.2] at hb
      exact Or.inr (bindStringSlice_error env p info expr e1 [r] e hb)

theorem bindCookie_error (env : Env) (p : paramInfo) (info : tagInfo) (expr expr1 : TagExpr)
    (cookies : List Cookie) (e : GoError)
    (h : p.bindCookie env info expr cookies = Except.ok (expr1, some e)) :
    e = info.requiredError ∨ e = info.typeError := by
  unfold paramInfo.bindCookie at h
  simp only at h
  by_cases hlen : (cookieValues info.paramName cookies).length = 0
  · rw [if_pos hlen] at h
    cases hr : info.required <;> simp [hr] at h
    exact Or.inl h.2.symm
  · rw [if_neg hlen] at h
    exact Or.inr (bindStringSlice_error env p info expr expr1 _ e h)

theorem bindRawBody_error (p : paramInfo) (info : tagInfo) (expr expr1 : TagExpr)
    (bodyBytes : List Nat) (e : GoError)
    (h : p.bindRawBody info expr bodyBytes = Except.ok (expr1, some e)) :
    e = info.requiredError ∨ e = info.typeError := by
  unfold paramInfo.bindRawBody at h
  by_cases hlen : bodyBytes.length = 0
  · rw [if_pos hlen] at h
    cases hr : info.required <;> simp [hr] at h
    exact Or.inl h.2.symm
  · rw [if_neg hlen] at h
    rcases hgf : p.getField expr true with ⟨e1, v, err⟩
    have herr : err = none := by
      have := getField_error p expr true
      rw [hgf] at this
      exact this
    subst herr
    rw [hgf] at h
    simp only at h
    cases hv : v.IsValid with
    | false => simp [hv] at h
    | true =>
      simp only [hv, ne_eq, not_true_eq_false, Bool.true_eq_false, or_self, if_false] at h
      cases hkind : (DereferenceValue v).kind <;> rw [hkind] at h <;> simp only at h <;>
        repeat' (first | (cases h; done) | (split at h))
      all_goals first
        | (cases h; done)
        | (cases h; exact Or.inr rfl)

theorem bindOrRequireBody_error (env : Env) (p : paramInfo) (info : tagInfo)
    (expr expr1 : TagExpr) (bodyCodec : codec) (bodyString : GoString) (postForm : MapStrings)
    (checkOpt : Bool) (b : Bool) (e : GoError)
    (h : p.bindOrRequireBody env info expr bodyCodec bodyString postForm checkOpt =
      Except.ok (expr1, b, some e)) :
    (bodyCodec = codec.bodyForm ∨ bodyCodec = codec.bodyJSON ∨ bodyCodec = codec.bodyProtobuf →
        e = info.requiredError ∨ e = info.typeError) ∧
      ((∃ tag, bodyCodec = codec.unknown tag) → e = info.contentTypeError) := by
  cases bodyCodec with
  | bodyForm =>
    refine ⟨fun _ => bindMapStrings_error env p info expr expr1 postForm b e h, ?_⟩
    rintro ⟨tag, ht⟩
    cases ht
  | bodyJSON =>
    refine ⟨fun _ => ?_, ?_⟩
    · unfold paramInfo.bindOrRequireBody paramInfo.checkRequireJSON at h
      simp only at h
      split at h
      · split at h
        · simp at h
          exact Or.inl h.2.2.symm
        · rcases hgf : p.getField expr false with ⟨e1, v, err⟩
          rw [hgf] at h
          simp only at h
          split at h
          · simp at h
            exact Or.inl h.2.2.symm
          · simp at h
      · simp at h
    · rintro ⟨tag, ht⟩
      cases ht
  | bodyProtobuf =>
    refine ⟨fun _ => ?_, ?_⟩
    · unfold paramInfo.bindOrRequireBody paramInfo.checkRequireProtobuf at h
      simp only at h
      split at h
      · rcases hgf : p.getField expr false with ⟨e1, v, err⟩
        rw [hgf] at h
        simp only at h
        split at h
        · simp at h
          exact Or.inl h.2.2.symm
        · simp at h
      · simp at h
    · rintro ⟨tag, ht⟩
      cases ht
  | unknown tag =>
    refine ⟨?_, fun _ => ?_⟩
    · rintro (hc | hc | hc) <;> cases hc
    · simp [paramInfo.bindOrRequireBody] at h
      exact h.2.2.symm

/-- C17. Every non-nil error that `bindRawBody`, `bindPath`, `bindQuery`, `bindHeader`,
`bindCookie` or `bindOrRequireBody` returns is one of the errors built with the rule
passed to the call: `requiredError` or `typeError` for the first five and for
`bindOrRequireBody` with one of the three codecs, `contentTypeError` for
`bindOrRequireBody` with another codec. No other error is passed on: `getField` returns
a nil error, and the error of the element conversion, whatever it is, is replaced by
`typeError`. -/
theorem C17_errors_are_prebuilt (env : Env) (p : paramInfo) (info : tagInfo) (expr : TagExpr) :
    (∀ (bodyBytes : List Nat) (expr1 : TagExpr) (e : GoError),
      p.bindRawBody info expr bodyBytes = Except.ok (expr1, some e) →
      e = info.requiredError ∨ e = info.typeError) ∧
    (∀ (pathParams : PathParams) (expr1 : TagExpr) (b : Bool) (e : GoError),
      p.bindPath env info expr pathParams = Except.ok (expr1, b, some e) →
      e = info.requiredError ∨ e = info.typeError) ∧
    (∀ (values : MapStrings) (expr1 : TagExpr) (b : Bool) (e : GoError),
      (p.bindQuery env info expr values = Except.ok (expr1, b, some e) ∨
        p.bindHeader env info expr values = Except.ok (expr1, b, some e)) →
      e = info.requiredError ∨ e = info.typeError) ∧
    (∀ (cookies : List Cookie) (expr1 : TagExpr) (e : GoError),
      p.bindCookie env info expr cookies = Except.ok (expr1, some e) →
      e = info.requiredError ∨ e = info.typeError) ∧
    (∀ (bodyCodec : codec) (bodyString : GoString) (postForm : MapStrings) (checkOpt : Bool)
      (expr1 : TagExpr) (b : Bool) (e : GoError),
      p.bindOrRequireBody env info expr bodyCodec bodyString postForm checkOpt =
        Except.ok (expr1, b, some e) →
      (bodyCodec = codec.bodyForm ∨ bodyCodec = codec.bodyJSON ∨ bodyCodec = codec.bodyProtobuf →
          e = info.requiredError ∨ e = info.typeError) ∧
        ((∃ tag, bodyCodec = codec.unknown tag) → e = info.contentTypeError)) ∧
    (∀ initZero : Bool, (p.getField expr initZero).2.2 = none) := by
  refine ⟨?_, ?_, ?_, ?_, ?_, getField_error p expr⟩
  · intro bodyBytes expr1 e h
    exact bindRawBody_error p info expr expr1 bodyBytes e h
  · intro pathParams expr1 b e h
    exact bindPath_error env p info expr expr1 pathParams b e h
  · intro values expr1 b e h
    rcases h with h | h <;> exact bindMapStrings_error env p info expr expr1 values b e h
  · intro cookies expr1 e h
    exact bindCookie_error env p info expr expr1 cookies e h
  · intro bodyCodec bodyString postForm checkOpt expr1 b e h
    exact bindOrRequireBody_error env p info expr expr1 bodyCodec bodyString postForm checkOpt b e h

/-- C17, witness: a slice-of-integer field and a query value that the element conversion
rejects with its own error `unsupported`: `bindQuery` returns the rule's `typeError`. -/
theorem C17_errors_are_prebuilt_witness :
    (exampleParam (exampleRule In.query "ids" false)).bindQuery exampleEnv
        (exampleRule In.query "ids" false)
        (exampleTarget (exampleField Kind.Slice Kind.Int64 (Data.many [])))
        [(str "ids", [str "x"])] =
      Except.ok (exampleBound (exampleField Kind.Slice Kind.Int64 (Data.many [])), true,
        some (exampleRule In.query "ids" false).typeError) ∧
    ((exampleRule In.query "ids" false).typeError = (exampleRule In.query "ids" false).requiredError ∨
      (exampleRule In.query "ids" false).typeError = (exampleRule In.query "ids" false).typeError) :=
  ⟨by decide,
    (C17_errors_are_prebuilt exampleEnv (exampleParam (exampleRule In.query "ids" false))
      (exampleRule In.query "ids" false)
      (exampleTarget (exampleField Kind.Slice Kind.Int64 (Data.many [])))).2.2.1
      [(str "ids", [str "x"])]
      (exampleBound (exampleField Kind.Slice Kind.Int64 (Data.many []))) true
      (exampleRule In.query "ids" false).typeError (Or.inl (by decide))⟩

/-! ## Lemmas on the panics -/

theorem Set_error (v : RValue) (x : Value) (e : Panic) (h : v.Set x = Except.error e) :
    e = Panic.notAssignable := by
  rcases Set_cases v x with hs | hs
  · rw [hs] at h; cases h
  · rw [hs] at h; cases h; rfl

theorem setStringSlice_panic (env : Env) (info : tagInfo) (v : RValue) (a0 : GoString)
    (rest : List GoString) (e : Panic)
    (h : setStringSlice env info v (a0 :: rest) = Except.error e) : e = Panic.notAssignable := by
  unfold setStringSlice at h
  cases hkind : (DereferenceValue v).kind <;> rw [hkind] at h <;>
    simp only [index0, setInt, setUint, setFloat] at h <;>
    repeat' (first | (cases h; done) | (split at h))
  all_goals first
    | (cases h; done)
    | (cases h; rename_i heq; exact Set_error _ _ _ heq)

theorem bindStringSlice_panic (env : Env) (p : paramInfo) (info : tagInfo) (expr : TagExpr)
    (a : List GoString) (ha : a ≠ []) (e : Panic)
    (h : p.bindStringSlice env info expr a = Except.error e) : e = Panic.notAssignable := by
  cases a with
  | nil => exact absurd rfl ha
  | cons a0 rest =>
    unfold paramInfo.bindStringSlice at h
    rcases hgf : p.getField expr true with ⟨e1, v, err⟩
    rw [hgf] at h
    simp only at h
    split at h
    · cases h
    · cases hs : setStringSlice env info v (a0 :: rest) with
      | error x =>
        rw [hs] at h
        cases h
        exact setStringSlice_panic env info v a0 rest _ hs
      | ok r =>
        rw [hs] at h
        cases h

theorem bindMapStrings_panic (env : Env) (p : paramInfo) (info : tagInfo) (expr : TagExpr)
    (values : MapStrings) (e : Panic)
    (h : p.bindMapStrings env info expr values = Except.error e) : e = Panic.notAssignable := by
  unfold paramInfo.bindMapStrings at h
  cases hm : mapIndex info.paramName values with
  | none =>
    rw [hm] at h
    cases hr : info.required <;> simp [hr] at h
  | some r =>
    rw [hm] at h
    simp only at h
    by_cases hlen : r.length = 0
    · rw [if_pos hlen] at h
      cases hr : info.required <;> simp [hr] at h
    · rw [if_neg hlen] at h
      have hne : r ≠ [] := fun h0 => hlen (by rw [h0]; rfl)
      cases hb : p.bindStringSlice env info expr r with
      | error x =>
        rw [hb] at h
        cases h
        exact bindStringSlice_panic env p info expr r hne _ hb
      | ok res =>
        rw [hb] at h
        cases h

/-- C18. The bound flag tells presence only. When the path parameters do not hold the
rule's key, `bindPath` returns `bound = false`; when they do, it hands the one-element
sequence holding the value to `bindStringSlice` and its outcome is that of the coercion
with `bound = true` (a panic of the coercion is passed on), so in every result
`bound = true` exactly when the key is held, and then the error is the error of the
coercion. The same holds for `bindMapStrings` (which `bindQuery`, `bindHeader` and the
form codec of `bindOrRequireBody` call) with presence meaning that the map holds the key
with a non-empty list. So `(true, typeError)` is a possible result: an 8-bit integer
field and the query value `128` give it. -/
theorem C18_bound_is_presence (env : Env) (p : paramInfo) (info : tagInfo) (expr : TagExpr) :
    (∀ pathParams : PathParams,
      ((pathParams.Get info.paramName).2 = false →
        p.bindPath env info expr pathParams =
          Except.ok (expr, false, if info.required then some info.requiredError else none)) ∧
      ((pathParams.Get info.paramName).2 = true →
        (∀ (expr1 : TagExpr) (err : Option GoError),
          p.bindStringSlice env info expr [(pathParams.Get info.paramName).1] =
            Except.ok (expr1, err) →
          p.bindPath env info expr pathParams = Except.ok (expr1, true, err)) ∧
        (∀ x : Panic,
          p.bindStringSlice env info expr [(pathParams.Get info.paramName).1] =
            Except.error x →
          p.bindPath env info expr pathParams = Except.error x)) ∧
      (∀ (expr1 : TagExpr) (bound : Bool) (err : Option GoError),
        p.bindPath env info expr pathParams = Except.ok (expr1, bound, err) →
        (bound = true ↔ (pathParams.Get info.paramName).2 = true) ∧
        (bound = true →
          p.bindStringSlice env info expr [(pathParams.Get info.paramName).1] =
            Except.ok (expr1, err)))) ∧
    (∀ values : MapStrings,
      p.bindQuery env info expr values = p.bindMapStrings env info expr values ∧
      p.bindHeader env info expr values = p.bindMapStrings env info expr values ∧
      (∀ (bodyString : GoString) (checkOpt : Bool),
        p.bindOrRequireBody env info expr codec.bodyForm bodyString values checkOpt =
          p.bindMapStrings env info expr values) ∧
      ((¬ ∃ r, mapIndex info.paramName values = some r ∧ r ≠ []) →
        p.bindMapStrings env info expr values =
          Except.ok (expr, false, if info.required then some info.requiredError else none)) ∧
      (∀ r : List GoString, mapIndex info.paramName values = some r → r ≠ [] →
        (∀ (expr1 : TagExpr) (err : Option GoError),
          p.bindStringSlice env info expr r = Except.ok (expr1, err) →
          p.bindMapStrings env info expr values = Except.ok (expr1, true, err)) ∧
        (∀ x : Panic, p.bindStringSlice env info expr r = Except.error x →
          p.bindMapStrings env info expr values = Except.error x)) ∧
      (∀ (expr1 : TagExpr) (bound : Bool) (err : Option GoError),
        p.bindMapStrings env info expr values = Except.ok (expr1, bound, err) →
        (bound = true ↔ ∃ r, mapIndex info.paramName values = some r ∧ r ≠ []) ∧
        (bound = true →
          ∃ r, mapIndex info.paramName values = some r ∧
            p.bindStringSlice env info expr r = Except.ok (expr1, err)))) ∧
    (exampleParam (exampleRule In.query "id" false)).bindQuery exampleEnv
        (exampleRule In.query "id" false)
        (exampleTarget (exampleField Kind.Int8 Kind.Invalid (Data.one (Scalar.int 0))))
        [(str "id", [str "128"])] =
      Except.ok (exampleBound (exampleField Kind.Int8 Kind.Invalid (Data.one (Scalar.int 0))),
        true, some (exampleRule In.query "id" false).typeError) := by
  refine ⟨?_, ?_, by decide⟩
  · intro pathParams
    unfold paramInfo.bindPath
    rcases hg : pathParams.Get info.paramName with ⟨r, found⟩
    cases found with
    | false =>
      refine ⟨fun _ => ?_, fun h => (by cases h), ?_⟩
      · cases hr : info.required <;> simp [hr]
      · intro expr1 bound err h
        cases hr : info.required <;> simp [hr] at h <;> simp [← h.2.1]
    | true =>
      refine ⟨fun h => (by cases h), fun _ => ⟨?_, ?_⟩, ?_⟩
      · intro expr1 err hb
        simp [hb]
      · intro x hb
        simp [hb]
      · intro expr1 bound err h
        cases hb : p.bindStringSlice env info expr [r] with
        | error x => simp [hb] at h
        | ok res =>
          obtain ⟨e1, err1⟩ := res
          simp [hb] at h
          obtain ⟨h1, h2, h3⟩ := h
          subst h1; subst h2; subst h3
          simp [hb]
  · intro values
    refine ⟨rfl, rfl, fun _ _ => rfl, ?_, ?_, ?_⟩
    · intro habs
      unfold paramInfo.bindMapStrings
      cases hm : mapIndex info.paramName values with
      | none => cases hr : info.required <;> simp [hr]
      | some r =>
        have hnil : r = [] := by
          by_contra hne
          exact habs ⟨r, hm, hne⟩
        subst hnil
        cases hr : info.required <;> simp [hr]
    · intro r hm hne
      have hlen : ¬ r.length = 0 := fun h => hne (List.length_eq_zero.mp h)
      refine ⟨?_, ?_⟩
      · intro expr1 err hb
        simp [paramInfo.bindMapStrings, hm, hlen, hb]
      · intro x hb
        simp [paramInfo.bindMapStrings, hm, hlen, hb]
    · intro expr1 bound err h
      unfold paramInfo.bindMapStrings at h
      cases hm : mapIndex info.paramName values with
      | none =>
        rw [hm] at h
        cases hr : info.required <;> simp [hr] at h <;> simp [← h.2.1]
      | some r =>
        rw [hm] at h
        simp only at h
        by_cases hlen : r.length = 0
        · have hnil : r = [] := List.length_eq_zero.mp hlen
          rw [if_pos hlen] at h
          cases hr : info.required <;> simp [hr] at h <;> simp [← h.2.1, hnil]
        · have hne : r ≠ [] := fun h0 => hlen (by rw [h0]; rfl)
          rw [if_neg hlen] at h
          cases hb : p.bindStringSlice env info expr r with
          | error x => simp [hb] at h
          | ok res =>
            obtain ⟨e1, err1⟩ := res
            simp [hb] at h
            obtain ⟨h1, h2, h3⟩ := h
            subst h1; subst h2; subst h3
            simp [hne, hb]

/-- C18, witness: the path parameters hold the value `128` for every name and the field
is an 8-bit integer: `bindPath` is bound and returns the `typeError` of the coercion. -/
theorem C18_bound_is_presence_witness :
    (exampleParam (exampleRule In.path "id" true)).bindPath exampleEnv
        (exampleRule In.path "id" true)
        (exampleTarget (exampleField Kind.Int8 Kind.Invalid (Data.one (Scalar.int 0))))
        ⟨fun _ => (str "128", true)⟩ =
      Except.ok (exampleBound (exampleField Kind.Int8 Kind.Invalid (Data.one (Scalar.int 0))),
        true, some (exampleRule In.path "id" true).typeError) :=
  (((C18_bound_is_presence exampleEnv (exampleParam (exampleRule In.path "id" true))
    (exampleRule In.path "id" true)
    (exampleTarget (exampleField Kind.Int8 Kind.Invalid (Data.one (Scalar.int 0))))).1
    ⟨fun _ => (str "128", true)⟩).2.1 rfl).1
    (exampleBound (exampleField Kind.Int8 Kind.Invalid (Data.one (Scalar.int 0))))
    (some (exampleRule In.path "id" true).typeError) (by decide)

/-- C19. Index safety. `setStringSlice` reads `a[0]` in its scalar cases and panics with
an index out of range on an empty sequence there (a string field with no token is such
a call); on a non-empty sequence it does not. No call of `bindPath`, `bindQuery`,
`bindHeader`, `bindCookie` or `bindOrRequireBody` (any codec) panics with an index out
of range, whatever its arguments: the sequences they hand on are a one-element sequence,
a map value of non-zero length, and a non-empty list of cookie values. -/
theorem C19_index_safety (env : Env) (p : paramInfo) (info : tagInfo) (expr : TagExpr) :
    setStringSlice env info (RValue.loc ⟨Kind.String, Kind.Invalid, false, false⟩ Data.other) [] =
        Except.error Panic.indexOutOfRange ∧
    (∀ (v : RValue) (a : List GoString), a ≠ [] →
      setStringSlice env info v a ≠ Except.error Panic.indexOutOfRange) ∧
    (∀ a : List GoString, a ≠ [] →
      p.bindStringSlice env info expr a ≠ Except.error Panic.indexOutOfRange) ∧
    (∀ pathParams : PathParams,
      p.bindPath env info expr pathParams ≠ Except.error Panic.indexOutOfRange) ∧
    (∀ values : MapStrings,
      p.bindQuery env info expr values ≠ Except.error Panic.indexOutOfRange) ∧
    (∀ values : MapStrings,
      p.bindHeader env info expr values ≠ Except.error Panic.indexOutOfRange) ∧
    (∀ cookies : List Cookie,
      p.bindCookie env info expr cookies ≠ Except.error Panic.indexOutOfRange) ∧
    (∀ (bodyCodec : codec) (bodyString : GoString) (postForm : MapStrings) (checkOpt : Bool),
      p.bindOrRequireBody env info expr bodyCodec bodyString postForm checkOpt ≠
        Except.error Panic.indexOutOfRange) := by
  have hne : Panic.indexOutOfRange ≠ Panic.notAssignable := by decide
  have hmap : ∀ values : MapStrings,
      p.bindMapStrings env info expr values ≠ Except.error Panic.indexOutOfRange :=
    fun values h => hne (bindMapStrings_panic env p info expr values _ h)
  refine ⟨rfl, ?_, ?_, ?_, hmap, hmap, ?_, ?_⟩
  · intro v a ha h
    cases a with
    | nil => exact ha rfl
    | cons a0 rest => exact hne (setStringSlice_panic env info v a0 rest _ h)
  · intro a ha h
    exact hne (bindStringSlice_panic env p info expr a ha _ h)
  · intro pathParams h
    unfold paramInfo.bindPath at h
    rcases hg : pathParams.Get info.paramName with ⟨r, found⟩
    rw [hg] at h
    cases found with
    | false => cases hr : info.required <;> simp [hr] at h
    | true =>
      cases hb : p.bindStringSlice env info expr [r] with
      | error x =>
        simp [hb] at h
        rw [h] at hb
        exact hne (bindStringSlice_panic env p info expr [r] (by simp) _ hb)
      | ok res => simp [hb] at h
  · intro cookies h
    unfold paramInfo.bindCookie at h
    simp only at h
    by_cases hlen : (cookieValues info.paramName cookies).length = 0
    · rw [if_pos hlen] at h
      cases hr : info.required <;> simp [hr] at h
    · rw [if_neg hlen] at h
      have hne1 : cookieValues info.paramName cookies ≠ [] := fun h0 => hlen (by rw [h0]; rfl)
      exact hne (bindStringSlice_panic env p info expr _ hne1 _ h)
  · intro bodyCodec bodyString postForm checkOpt h
    cases bodyCodec with
    | bodyForm => exact hmap postForm h
    | bodyJSON =>
      simp only [paramInfo.bindOrRequireBody] at h
      cases h
    | bodyProtobuf =>
      simp only [paramInfo.bindOrRequireBody] at h
      cases h
    | unknown tag =>
      simp only [paramInfo.bindOrRequireBody] at h
      cases h

/-- C19, witness: a string field and a query map whose value list for the key is empty:
`bindQuery` does not reach `a[0]`; it reports the key as absent. -/
theorem C19_index_safety_witness :
    (exampleParam (exampleRule In.query "q" false)).bindQuery exampleEnv
        (exampleRule In.query "q" false)
        (exampleTarget (exampleField Kind.String Kind.Invalid (Data.one (Scalar.str []))))
        [(str "q", [])] =
      Except.ok (exampleTarget (exampleField Kind.String Kind.Invalid (Data.one (Scalar.str []))),
        false, none) ∧
    (exampleParam (exampleRule In.query "q" false)).bindQuery exampleEnv
        (exampleRule In.query "q" false)
        (exampleTarget (exampleField Kind.String Kind.Invalid (Data.one (Scalar.str []))))
        [(str "q", [])] ≠ Except.error Panic.indexOutOfRange :=
  ⟨by decide,
    (C19_index_safety exampleEnv (exampleParam (exampleRule In.query "q" false))
      (exampleRule In.query "q" false)
      (exampleTarget
        (exampleField Kind.String Kind.Invalid (Data.one (Scalar.str []))))).2.2.2.2.1
      [(str "q", [])]⟩

theorem getField_no_handle (p : paramInfo) (expr : TagExpr)
    (hno : ∀ fh, expr.Field p.fieldSelector = some fh → (fh.Value expr true).2.IsValid = false) :
    (p.getField expr true).2 = (RValue.invalid, none) ∧
      ((p.getField expr true).1).fieldValue p.fieldSelector = expr.fieldValue p.fieldSelector := by
  unfold paramInfo.getField
  cases hf : expr.Field p.fieldSelector with
  | none => exact ⟨rfl, rfl⟩
  | some fh =>
    have hv := hno fh hf
    have hsel : fh.selector = p.fieldSelector := by
      unfold TagExpr.Field at hf
      cases hm : mapIndex p.fieldSelector expr.fields with
      | none => simp [hm] at hf
      | some s =>
        simp only [hm, Option.map_some', Option.some.injEq] at hf
        rw [← hf]
    simp only [FieldHandler.Value, if_true] at hv ⊢
    simp only [hv, Bool.false_eq_true, if_false, hsel, true_and]
    exact fieldValue_init expr p.fieldSelector

/-- C20. When the selector engine yields no valid field handle (the selector is not
found, or its value is not valid even with initialisation requested), binding a present
value succeeds silently, for required and optional rules alike: `bindStringSlice`, and
`bindRawBody` with a non-empty body, return nil and the field is as before, so
`bindPath` and `bindMapStrings` return `(true, nil)`. Method `getField` never returns a
non-nil error. -/
theorem C20_no_handle_is_silent (env : Env) (p : paramInfo) (info : tagInfo) (expr : TagExpr)
    (hno : ∀ fh, expr.Field p.fieldSelector = some fh → (fh.Value expr true).2.IsValid = false) :
    (∀ a : List GoString,
      p.bindStringSlice env info expr a = Except.ok ((p.getField expr true).1, none)) ∧
    (∀ bodyBytes : List Nat, bodyBytes ≠ [] →
      p.bindRawBody info expr bodyBytes = Except.ok ((p.getField expr true).1, none)) ∧
    ((p.getField expr true).1).fieldValue p.fieldSelector = expr.fieldValue p.fieldSelector ∧
    (∀ pathParams : PathParams, (pathParams.Get info.paramName).2 = true →
      p.bindPath env info expr pathParams = Except.ok ((p.getField expr true).1, true, none)) ∧
    (∀ (values : MapStrings) (r : List GoString),
      mapIndex info.paramName values = some r → r ≠ [] →
      p.bindMapStrings env info expr values =
        Except.ok ((p.getField expr true).1, true, none)) ∧
    (∀ (q : paramInfo) (target : TagExpr) (initZero : Bool),
      (q.getField target initZero).2.2 = none) := by
  obtain ⟨hget, hfield⟩ := getField_no_handle p expr hno
  have hbss : ∀ a : List GoString,
      p.bindStringSlice env info expr a = Except.ok ((p.getField expr true).1, none) := by
    intro a
    unfold paramInfo.bindStringSlice
    rcases hgf : p.getField expr true with ⟨e1, v, err⟩
    rw [hgf] at hget
    simp only [Prod.mk.injEq] at hget
    obtain ⟨hv, herr⟩ := hget
    subst hv
    subst herr
    simp [RValue.IsValid]
  refine ⟨hbss, ?_, hfield, ?_, ?_, fun q target initZero => getField_error q target initZero⟩
  · intro bodyBytes hne
    have hlen : ¬ bodyBytes.length = 0 := fun h => hne (List.length_eq_zero.mp h)
    unfold paramInfo.bindRawBody
    rw [if_neg hlen]
    rcases hgf : p.getField expr true with ⟨e1, v, err⟩
    rw [hgf] at hget
    simp only [Prod.mk.injEq] at hget
    obtain ⟨hv, herr⟩ := hget
    subst hv
    subst herr
    simp [RValue.IsValid]
  · intro pathParams hfound
    unfold paramInfo.bindPath
    rcases hg : pathParams.Get info.paramName with ⟨r, found⟩
    rw [hg] at hfound
    simp only at hfound
    subst hfound
    simp [hbss]
  · intro values r hm hne
    have hlen : ¬ r.length = 0 := fun h => hne (List.length_eq_zero.mp h)
    simp [paramInfo.bindMapStrings, hm, hlen, hbss]

/-- C20, witness: a required query rule `id`, a query map that holds the key, and a
target that does not know the field's selector: `bindMapStrings` returns `(true, nil)`
and the target is as before. -/
theorem C20_no_handle_is_silent_witness :
    (exampleParam (exampleRule In.query "id" true)).bindMapStrings exampleEnv
      (exampleRule In.query "id" true) ⟨[]⟩ [(str "id", [str "42"])] =
      Except.ok (⟨[]⟩, true, none) :=
  (C20_no_handle_is_silent exampleEnv (exampleParam (exampleRule In.query "id" true))
    (exampleRule In.query "id" true) ⟨[]⟩
    (fun fh hf => by cases hf)).2.2.2.2.1 [(str "id", [str "42"])] [str "42"] rfl (by decide)

end Binding
